import Mathlib

/-!
Shallow embedding in Lean 4 of the release-image parser and the
device-programming state machine of the `pyjoulescope_driver` package
(`pyjoulescope_driver/release.py` and `pyjoulescope_driver/program.py`),
with theorems settling the specification claims about them.

Python `bytes` values are modeled as `List Nat` whose entries are read
modulo 256 (the identity on genuine bytes).  Python `dict`s keyed by
subtype are modeled as association lists with Python's insertion
semantics (replace in place if the key exists, append otherwise).
-/

namespace Joulescope

/-- Python bytes buffer. -/
abbrev Bytes := List Nat

/-- release.py: `MAGIC_HEADER = b'joulescope_img_section\x0D\x0A \x0A \x1A  \xB2\x1C'`
(32 bytes). -/
def MAGIC_HEADER : Bytes :=
  [0x6a, 0x6f, 0x75, 0x6c, 0x65, 0x73, 0x63, 0x6f, 0x70, 0x65, 0x5f,
   0x69, 0x6d, 0x67, 0x5f, 0x73, 0x65, 0x63, 0x74, 0x69, 0x6f, 0x6e,
   0x0D, 0x0A, 0x20, 0x0A, 0x20, 0x1A, 0x20, 0x20, 0xB2, 0x1C]

def SUBTYPE_CTRL_UPDATER1 : Nat := 1

def SUBTYPE_CTRL_UPDATER2 : Nat := 2

def SUBTYPE_CTRL_APP : Nat := 3

def SUBTYPE_SENSOR_FPGA : Nat := 4

def CTRL_TYPE_APP : Nat := 0

def CTRL_TYPE_UPD1 : Nat := 1

def CTRL_TYPE_UPD2 : Nat := 2

/-- release.py: one entry of the `TARGETS` table built by `_targets_generate`. -/
structure Target where
  subtype : Nat
  name : String
  mem_region : String
  target_id : Option Nat
deriving DecidableEq

/-- release.py: the static `TARGETS` table, keyed by subtype; `none` models a
Python `KeyError` on lookup of an unknown subtype. -/
def TARGETS (subtype : Nat) : Option Target :=
  if subtype = SUBTYPE_CTRL_UPDATER2 then
    some ⟨SUBTYPE_CTRL_UPDATER2, "ctrl_updater2", "h/mem/c/upd2", some CTRL_TYPE_UPD2⟩
  else if subtype = SUBTYPE_CTRL_UPDATER1 then
    some ⟨SUBTYPE_CTRL_UPDATER1, "ctrl_updater1", "h/mem/c/upd1", some CTRL_TYPE_UPD1⟩
  else if subtype = SUBTYPE_SENSOR_FPGA then
    some ⟨SUBTYPE_SENSOR_FPGA, "sensor_fpga", "h/mem/s/app1", none⟩
  else if subtype = SUBTYPE_CTRL_APP then
    some ⟨SUBTYPE_CTRL_APP, "ctrl_app", "h/mem/c/app", some CTRL_TYPE_APP⟩
  else
    none

/-- Little-endian u16 read at byte offset `off`, as `struct.unpack('<H', img[off:off+2])`. -/
def readU16 (img : Bytes) (off : Nat) : Nat :=
  img.getD off 0 % 256 + 256 * (img.getD (off + 1) 0 % 256)

/-- Little-endian u32 read at byte offset `off`, as `struct.unpack('<I', img[off:off+4])`. -/
def readU32 (img : Bytes) (off : Nat) : Nat :=
  img.getD off 0 % 256 + 256 * (img.getD (off + 1) 0 % 256)
    + 65536 * (img.getD (off + 2) 0 % 256) + 16777216 * (img.getD (off + 3) 0 % 256)

/-- Python exceptions raised by the embedded code.  `outOfFuel` is not a Python
exception: it marks exhaustion of the step budget of the model, i.e. a loop of the
source that has not terminated within the given fuel. -/
inductive PyErr where
  | runtimeError (msg : String)
  | keyError
  | timeoutError (msg : String)
  | outOfFuel
deriving DecidableEq

/-- release.py: one entry of the segment map built by `release_to_segments`
(`{'subtype': ..., 'name': ..., 'version': ..., 'img': ...}`). -/
structure Segment where
  subtype : Nat
  name : String
  version : Nat
  img : Bytes
deriving DecidableEq

/-- Python `dict` insertion: replace the value in place when the key is present,
append the pair otherwise. -/
def pyDictInsert (m : List (Nat × Segment)) (k : Nat) (v : Segment) : List (Nat × Segment) :=
  match m with
  | [] => [(k, v)]
  | (k', v') :: rest => if k' = k then (k, v) :: rest else (k', v') :: pyDictInsert rest k v

/-- release.py: the `while len(img):` loop body of `release_to_segments`,
with an explicit fuel counter; `none` means the fuel was exhausted (the source
loop has not terminated within `fuel` iterations). -/
def release_to_segments_loop :
    Nat → List (Nat × Segment) → Bytes → Option (Except PyErr (List (Nat × Segment)))
  | 0, _, _ => none
  | fuel + 1, segments, img =>
    if img.length = 0 then
      some (.ok segments)
    else if ¬ (MAGIC_HEADER.isPrefixOf img) then
      some (.error (.runtimeError "invalid image"))
    else if img.length < 1024 then
      some (.error (.runtimeError "invalid image"))
    else
      let sz := readU32 img 32
      let ver := readU32 img 288
      let subtype := readU16 img 296
      match TARGETS subtype with
      | none => some (.error .keyError)
      | some tgt =>
        release_to_segments_loop fuel
          (pyDictInsert segments subtype ⟨subtype, tgt.name, ver, img.take sz⟩)
          (img.drop sz)

/-- release.py: `release_to_segments(img)`.  Fuel `img.length + 1` covers every
terminating execution of the source loop, since each completed iteration consumes
at least one byte whenever its `size` field is nonzero; `none` therefore marks an
input on which the source loop runs forever. -/
def release_to_segments (img : Bytes) : Option (Except PyErr (List (Nat × Segment))) :=
  release_to_segments_loop (img.length + 1) [] img

/-- program.py: the domain of `version_to_str`'s argument
(Python `None`, `str`, or a non-negative `int`). -/
inductive Version where
  | unknown
  | str (s : String)
  | num (n : Nat)
deriving DecidableEq

/-- program.py: `version_to_str(version)`. -/
def version_to_str (version : Version) : String :=
  match version with
  | .unknown => "?.?.?"
  | .str s => s
  | .num v =>
    let v_patch := v &&& 0xffff
    let v_minor := (v >>> 16) &&& 0xff
    let v_major := (v >>> 24) &&& 0xff
    toString v_major ++ "." ++ toString v_minor ++ "." ++ toString v_patch

/-- program.py: the `SUBTYPE_RESET` table.  The outer `none` models a Python
`KeyError`; the inner `none` is the table's `None` entry for `SUBTYPE_SENSOR_FPGA`. -/
def SUBTYPE_RESET (subtype : Nat) : Option (Option String) :=
  if subtype = SUBTYPE_CTRL_UPDATER1 then some (some "update1")
  else if subtype = SUBTYPE_CTRL_UPDATER2 then some (some "update2")
  else if subtype = SUBTYPE_CTRL_APP then some (some "app")
  else if subtype = SUBTYPE_SENSOR_FPGA then some none
  else none

/-- Values exchanged with the driver. -/
inductive DVal where
  | pyNone
  | nat (n : Nat)
  | str (s : String)
  | bytes (b : Bytes)
  | paths (ps : List String)
deriving DecidableEq

/-- A request issued by the embedded code.  Durations are in milliseconds
(Python `timeout=10` seconds becomes `some 10000`, `time.sleep(0.1)` becomes
`sleep 100`) and progress-callback completions are in hundredths (`0.15`
becomes `15`); both rescalings are exact on every value the source uses.
`progress` and `sleep` are not driver requests but are recorded so that
theorems can speak about the full call sequence. -/
inductive Req where
  | publish (topic : String) (value : DVal) (timeout : Option Nat)
  | query (topic : String)
  | openDev (path : String)
  | closeDev (path : String)
  | devicePaths
  | timeNow
  | sleep (ms : Nat)
  | progress (completion : Nat) (msg : String)
deriving DecidableEq

/-- One trace entry: a request together with the Programmer's
`_running_subtype` at the moment the request was issued. -/
structure Event where
  req : Req
  running : Option Nat
deriving DecidableEq

/-- The environment: for each call index and request, the response.
`none` models the operation failing with `TimeoutError`. -/
def Env : Type := Nat → Req → Option DVal

/-- program.py: the mutable state set up by `Programmer.__init__`. -/
structure PState where
  path : String
  path_app : String
  path_updater : String
  running_subtype : Option Nat
deriving DecidableEq

/-- Execution state: Programmer state, call counter, and the trace so far. -/
structure World where
  prog : PState
  k : Nat
  trace : List Event
deriving DecidableEq

/-- State-and-error monad for the embedded Python code.  The world survives an
exception, so the trace of a failing run remains inspectable. -/
def M (α : Type) : Type := World → Except PyErr α × World

instance : Monad M where
  pure a := fun w => (.ok a, w)
  bind x f := fun w =>
    match x w with
    | (.ok a, w') => f a w'
    | (.error e, w') => (.error e, w')

def M.get : M World := fun w => (.ok w, w)

def M.throw {α : Type} (e : PyErr) : M α := fun w => (.error e, w)

def M.modifyProg (f : PState → PState) : M Unit :=
  fun w => (.ok (), { w with prog := f w.prog })

/-- Issue a request: record it in the trace (with the current
`_running_subtype`), consume one call index, and return the response. -/
def drvCall (env : Env) (r : Req) : M (Option DVal) := fun w =>
  (.ok (env w.k r),
   { w with k := w.k + 1, trace := w.trace ++ [⟨r, w.prog.running_subtype⟩] })

/-- `driver.publish(topic, value, timeout)`: fails with `TimeoutError` when
unacknowledged (response `none`). -/
def Driver.publish (env : Env) (topic : String) (value : DVal) (timeout : Option Nat) :
    M Unit := do
  match ← drvCall env (.publish topic value timeout) with
  | none => M.throw (.timeoutError topic)
  | some _ => pure ()

/-- `driver.query(topic)`. -/
def Driver.query (env : Env) (topic : String) : M DVal := do
  match ← drvCall env (.query topic) with
  | none => M.throw (.timeoutError topic)
  | some v => pure v

/-- `driver.open(path)` (mode and timeout arguments omitted: always `None`
at the modeled call sites). -/
def Driver.openDev (env : Env) (path : String) : M Unit := do
  match ← drvCall env (.openDev path) with
  | none => M.throw (.timeoutError path)
  | some _ => pure ()

/-- `driver.close(path)`. -/
def Driver.closeDev (env : Env) (path : String) : M Unit := do
  match ← drvCall env (.closeDev path) with
  | none => M.throw (.timeoutError path)
  | some _ => pure ()

/-- `driver.device_paths()`: the currently enumerated device paths. -/
def Driver.device_paths (env : Env) : M (List String) := do
  match ← drvCall env .devicePaths with
  | some (.paths ps) => pure ps
  | _ => pure []

/-- `time.time()`, in milliseconds. -/
def timeNow (env : Env) : M Nat := do
  match ← drvCall env .timeNow with
  | some (.nat t) => pure t
  | _ => pure 0

/-- `time.sleep`, in milliseconds; recorded in the trace, never fails. -/
def doSleep (env : Env) (ms : Nat) : M Unit := do
  let _ ← drvCall env (.sleep ms)
  pure ()

/-- The `progress(completion, msg)` callback; recorded in the trace, never fails. -/
def doProgress (env : Env) (completion : Nat) (msg : String) : M Unit := do
  let _ ← drvCall env (.progress completion msg)
  pure ()

/-- program.py: `Programmer.__init__(driver, device_path)`: derive the app and
updater path spellings and the initial `_running_subtype`. -/
def Programmer.init (device_path : String) : PState :=
  if device_path.data.getD 2 ' ' ≠ '&' then
    { path := device_path
      path_app := device_path
      path_updater := device_path.take 2 ++ "&" ++ device_path.drop 2
      running_subtype := some SUBTYPE_CTRL_APP }
  else
    { path := device_path
      path_app := device_path.take 2 ++ device_path.drop 3
      path_updater := device_path
      running_subtype := none }

/-- program.py: the `Programmer.version` property. -/
def Programmer.version (env : Env) : M DVal := do
  let w ← M.get
  Driver.query env (w.prog.path ++ "/c/fw/version")

/-- program.py: the `Programmer.fpga_version` property. -/
def Programmer.fpga_version (env : Env) : M DVal := do
  let w ← M.get
  Driver.query env (w.prog.path ++ "/s/fpga/version")

/-- program.py: the `Programmer.target_id` property. -/
def Programmer.target_id (env : Env) : M DVal := do
  let w ← M.get
  Driver.query env (w.prog.path ++ "/c/target")

/-- program.py: the first (`await removal`) loop of `Programmer._device_await`,
with fuel for the unbounded `while True`. -/
def Programmer.device_await_removal (env : Env) (t_end : Nat) : Nat → M Unit
  | 0 => M.throw .outOfFuel
  | fuel + 1 => do
    let w ← M.get
    let device_paths ← Driver.device_paths env
    let devices := device_paths.filter (fun d => d == w.prog.path)
    if devices.isEmpty then
      pure ()
    else
      let t ← timeNow env
      if t_end < t then
        M.throw (.timeoutError ("timeout waiting for " ++ w.prog.path ++ " removal"))
      else
        Programmer.device_await_removal env t_end fuel

/-- program.py: the second (`await reappearance`) loop of
`Programmer._device_await`. -/
def Programmer.device_await_appear (env : Env) (device_path : String) (t_end : Nat) :
    Nat → M Unit
  | 0 => M.throw .outOfFuel
  | fuel + 1 => do
    let device_paths ← Driver.device_paths env
    let devices := device_paths.filter (fun d => d == device_path)
    match devices with
    | d :: _ => M.modifyProg (fun p => { p with path := d })
    | [] => do
      let t ← timeNow env
      if t_end < t then
        M.throw (.timeoutError ("timeout waiting for " ++ device_path ++ " in "
          ++ String.intercalate "," device_paths))
      else do
        doSleep env 100
        Programmer.device_await_appear env device_path t_end fuel

/-- program.py: `Programmer._device_await(device_path, timeout)`
(default timeout 5 seconds). -/
def Programmer.device_await (env : Env) (device_path : String) (timeout : Option Nat)
    (fuel : Nat) : M Unit := do
  let timeout := timeout.getD 5000
  let t0 ← timeNow env
  Programmer.device_await_removal env (t0 + timeout) fuel
  Programmer.device_await_appear env device_path (t0 + timeout) fuel

/-- Python value published on the reset topic (the registry reset name, or
`None` for `sensor_fpga`). -/
def resetVal : Option String → DVal
  | some s => .str s
  | none => .pyNone

/-- program.py: `Programmer.reset_to(subtype)`. -/
def Programmer.reset_to (env : Env) (subtype : Nat) (fuel : Nat) : M Unit := do
  let w ← M.get
  if w.prog.running_subtype = some subtype then
    pure ()
  else
    match SUBTYPE_RESET subtype with
    | none => M.throw .keyError
    | some reset_target => do
      Driver.publish env (w.prog.path ++ "/h/!reset") (resetVal reset_target) none
      Driver.closeDev env w.prog.path
      let path := if subtype = SUBTYPE_CTRL_APP then w.prog.path_app else w.prog.path_updater
      Programmer.device_await env path none fuel
      M.modifyProg (fun p => { p with running_subtype := some subtype })
      let w' ← M.get
      Driver.openDev env w'.prog.path

/-- program.py: `Programmer.query(topic)`. -/
def Programmer.query (env : Env) (topic : String) : M DVal := do
  let w ← M.get
  Driver.query env (w.prog.path ++ "/" ++ topic)

/-- program.py: `Programmer.publish(topic, value, timeout)`. -/
def Programmer.publish (env : Env) (topic : String) (value : DVal) (timeout : Option Nat) :
    M Unit := do
  let w ← M.get
  Driver.publish env (w.prog.path ++ "/" ++ topic) value timeout

/-- program.py: `Programmer.open()`. -/
def Programmer.openSelf (env : Env) : M Unit := do
  let w ← M.get
  Driver.openDev env w.prog.path

/-- program.py: `Programmer.close()`. -/
def Programmer.closeSelf (env : Env) : M Unit := do
  let w ← M.get
  Driver.closeDev env w.prog.path

/-- The registry value that `segment_program`'s verification compares the
`target_id` read-back against. -/
def targetIdVal : Option Nat → DVal
  | some n => .nat n
  | none => .pyNone

/-- program.py: the `attempt_msg` string of `Programmer.segment_program`
(`'' if attempt == 0 else f' (retry {attempt})'`). -/
def attemptMsg (attempt : Nat) : String :=
  if attempt = 0 then "" else " (retry " ++ toString attempt ++ ")"

/-- program.py: the `for attempt in range(10)` loop of
`Programmer.segment_program`, by recursion on the remaining attempts
(`attempt = 10 - rem`); exhaustion raises the fatal `RuntimeError`. -/
def Programmer.segment_program_loop (env : Env) (segment : Segment) (target : Target)
    (progress_msg : String) (p1 p2 : Nat) (fuel : Nat) : Nat → M (Option DVal)
  | 0 => M.throw (.runtimeError ("Failed to program " ++ target.name))
  | rem + 1 => do
    let attempt := 10 - (rem + 1)
    let attempt_msg := attemptMsg attempt
    doProgress env p1 (progress_msg ++ attempt_msg)
    if segment.subtype = SUBTYPE_CTRL_UPDATER1 then
      Programmer.reset_to env SUBTYPE_CTRL_UPDATER2 fuel
    else if segment.subtype = SUBTYPE_CTRL_UPDATER2 then
      Programmer.reset_to env SUBTYPE_CTRL_UPDATER1 fuel
    else
      pure ()
    doProgress env p1 (progress_msg ++ " erase" ++ attempt_msg)
    Programmer.publish env (target.mem_region ++ "/!erase") (.nat 0) (some 10000)
    doProgress env p2 (progress_msg ++ " write" ++ attempt_msg)
    Programmer.publish env (target.mem_region ++ "/!write") (.bytes segment.img) (some 10000)
    match SUBTYPE_RESET segment.subtype with
    | none => M.throw .keyError
    | some none => pure none
    | some (some _) => do
      Programmer.reset_to env segment.subtype fuel
      let version ← Programmer.version env
      let tid ← Programmer.target_id env
      if tid = targetIdVal target.target_id ∧ version = .nat segment.version then
        pure (some version)
      else
        Programmer.segment_program_loop env segment target progress_msg p1 p2 fuel rem

/-- program.py: `Programmer.segment_program(segment, progress, progress_msg, p1, p2)`. -/
def Programmer.segment_program (env : Env) (segment : Segment) (progress_msg : String)
    (p1 p2 : Nat) (fuel : Nat) : M (Option DVal) := do
  match TARGETS segment.subtype with
  | none => M.throw .keyError
  | some target =>
    Programmer.segment_program_loop env segment target progress_msg p1 p2 fuel 10

/-- Python `try: body except TimeoutError: handler` (only `TimeoutError` is
caught; in particular the fuel-exhaustion marker is not). -/
def catchTimeout {α : Type} (body : M α) (handler : String → M α) : M α := fun w =>
  match body w with
  | (.error (.timeoutError m), w') => handler m w'
  | r => r

/-- Lift a (possibly missing) driver response into `version_to_str`'s domain.
A Python `None` renders as unknown; `bytes`/`paths` responses cannot arrive from
the modeled version queries. -/
def vOptToVersion : Option DVal → Version
  | none => .unknown
  | some .pyNone => .unknown
  | some (.nat n) => .num n
  | some (.str s) => .str s
  | some (.bytes _) => .num 0
  | some (.paths _) => .num 0

/-- program.py: the `try: reset_to(...); version except TimeoutError:
record unknown; close; open` block that `release_program` runs for each
updater during its initial probing. -/
def release_probe_updater (env : Env) (subtype : Nat) (fuel : Nat) : M (Option DVal) :=
  catchTimeout
    (do
      Programmer.reset_to env subtype fuel
      let v ← Programmer.version env
      pure (some v))
    (fun _ => do
      Programmer.closeSelf env
      Programmer.openSelf env
      pure none)

/-- program.py: `release_program(driver, device_path, image, force_program, progress)`.
Returns `(versions_before, versions_after)`. -/
def release_program (env : Env) (device_path : String) (image : Bytes)
    (force_program : Bool) (fuel : Nat) : M (List (String × String) × List (String × String)) := do
  match release_to_segments image with
  | none => M.throw .outOfFuel
  | some (.error e) => M.throw e
  | some (.ok segments) => do
    doProgress env 0 "Check app version"
    M.modifyProg (fun _ => Programmer.init device_path)
    let w ← M.get
    let ctrl_app_version : Option DVal ←
      if w.prog.path = w.prog.path_app then do
        let v ← Programmer.version env
        pure (some v)
      else
        pure none
    doProgress env 2 "Check updater2 version"
    let update2_version ← release_probe_updater env SUBTYPE_CTRL_UPDATER2 fuel
    doProgress env 5 "Check updater1 version"
    let update1_version ← release_probe_updater env SUBTYPE_CTRL_UPDATER1 fuel
    let sensor_fpga_version ← Programmer.query env "s/fpga/version"
    let versions_before :=
      [("app", version_to_str (vOptToVersion ctrl_app_version)),
       ("fpga", version_to_str (vOptToVersion (some sensor_fpga_version))),
       ("update1", version_to_str (vOptToVersion update1_version)),
       ("update2", version_to_str (vOptToVersion update2_version))]
    doProgress env 10 "Program updater2"
    let update2_version ←
      match List.lookup SUBTYPE_CTRL_UPDATER2 segments with
      | some segment =>
        if force_program ∨ ¬ update2_version = some (.nat segment.version) then
          Programmer.segment_program env segment "Program updater2" 10 15 fuel
        else
          pure update2_version
      | none => pure update2_version
    doProgress env 20 "Program updater1"
    let update1_version ←
      match List.lookup SUBTYPE_CTRL_UPDATER1 segments with
      | some segment =>
        if force_program ∨ ¬ update1_version = some (.nat segment.version) then
          Programmer.segment_program env segment "Program updater1" 20 25 fuel
        else
          pure update1_version
      | none => pure update1_version
    doProgress env 30 "Program sensor FPGA"
    match List.lookup SUBTYPE_SENSOR_FPGA segments with
    | some segment =>
      if force_program ∨ ¬ sensor_fpga_version = .nat segment.version then do
        let _ ← Programmer.segment_program env segment "Program sensor FPGA" 30 55 fuel
        pure ()
      else
        pure ()
    | none => pure ()
    doProgress env 65 "Program controller application"
    let ctrl_app_version ←
      match List.lookup SUBTYPE_CTRL_APP segments with
      | some segment =>
        if force_program ∨ ¬ ctrl_app_version = some (.nat segment.version) then
          Programmer.segment_program env segment "Program controller application" 65 90 fuel
        else do
          Programmer.reset_to env SUBTYPE_CTRL_APP fuel
          pure ctrl_app_version
      | none => do
        Programmer.reset_to env SUBTYPE_CTRL_APP fuel
        pure ctrl_app_version
    doProgress env 97 "Finalizing"
    let sensor_fpga_version ← Programmer.query env "s/fpga/version"
    Programmer.closeSelf env
    let versions_after :=
      [("app", version_to_str (vOptToVersion ctrl_app_version)),
       ("fpga", version_to_str (vOptToVersion (some sensor_fpga_version))),
       ("update1", version_to_str (vOptToVersion update1_version)),
       ("update2", version_to_str (vOptToVersion update2_version))]
    doProgress env 100 "Complete"
    pure (versions_before, versions_after)

/-- A well-formed segment record of the release-image binary format: fixed
magic preamble, little-endian u32 `size` field (bytes 32–35) equal to the
record's total byte length, total length at least 1024, and a subtype
(little-endian u16 at bytes 296–297) among the four known ones. -/
def wfRecord (r : Bytes) : Prop :=
  MAGIC_HEADER.isPrefixOf r = true
  ∧ readU32 r 32 = r.length
  ∧ 1024 ≤ r.length
  ∧ readU16 r 296 ∈
      [SUBTYPE_CTRL_UPDATER1, SUBTYPE_CTRL_UPDATER2, SUBTYPE_CTRL_APP, SUBTYPE_SENSOR_FPGA]

/-- The segment-map entry a well-formed record decodes to: its encoded subtype,
the registry name, its encoded version, and (since `size` equals the record
length) the whole record as `img`. -/
def recordSegment (r : Bytes) : Segment :=
  { subtype := readU16 r 296
    name := match TARGETS (readU16 r 296) with
            | some t => t.name
            | none => ""
    version := readU32 r 288
    img := r }

/-- A 1024-byte buffer with valid magic preamble, `size` field equal to 0
(bytes 32–35) and subtype 1 (bytes 296–297): the cursor never advances, so the
`release_to_segments` loop runs forever on it. -/
def zeroSizeImg : Bytes :=
  MAGIC_HEADER ++ List.replicate 264 0 ++ [1, 0] ++ List.replicate 726 0

/-- A concrete well-formed 1024-byte record: `size = 1024`, version 9,
subtype `ctrl_app`. -/
def wfRec1 : Bytes :=
  MAGIC_HEADER ++ [0x00, 0x04, 0x00, 0x00] ++ List.replicate 252 0
    ++ [9, 0, 0, 0] ++ List.replicate 4 0 ++ [3, 0] ++ List.replicate 726 0

/-- The world after recording one request in the trace. -/
def pushEvent (w : World) (r : Req) : World :=
  { w with k := w.k + 1, trace := w.trace ++ [⟨r, w.prog.running_subtype⟩] }

/-- An erase request: the only publishes with value `0` and a 10-second timeout
issued by the embedded code are `segment_program`'s `!erase` requests. -/
def isEraseReq (r : Req) : Bool :=
  match r with
  | .publish _ (.nat 0) (some 10000) => true
  | _ => false

/-- A write request: the only publishes with a bytes payload and a 10-second
timeout issued by the embedded code are `segment_program`'s `!write` requests. -/
def isWriteReq (r : Req) : Bool :=
  match r with
  | .publish _ (.bytes _) (some 10000) => true
  | _ => false

def isEraseEvent (e : Event) : Bool := isEraseReq e.req

def isWriteEvent (e : Event) : Bool := isWriteReq e.req

/-- Number of erase requests in a trace (= number of attempts that reached the
erase step in `segment_program`). -/
def countErase (tr : List Event) : Nat := (tr.filter isEraseEvent).length

/-- Number of write requests in a trace. -/
def countWrite (tr : List Event) : Nat := (tr.filter isWriteEvent).length

/-- `w'` extends `w` by appending trace events only. -/
def TraceExtends (w w' : World) : Prop := ∃ Δ, w'.trace = w.trace ++ Δ

/-- `w'` extends `w` by events whose requests all satisfy `P`. -/
def DeltaReqs (P : Req → Prop) (w w' : World) : Prop :=
  ∃ Δ, w'.trace = w.trace ++ Δ ∧ ∀ e ∈ Δ, P e.req

/-- The device paths carried by a `devicePaths` response (empty list for a
missing or ill-typed response, as in the embedding of `device_paths`). -/
def pathsOf (o : Option DVal) : List String :=
  match o with
  | some (.paths ps) => ps
  | _ => []

/-- The clock value carried by a `timeNow` response (0 for a missing or
ill-typed response, as in the embedding of `time.time`). -/
def timeOf (o : Option DVal) : Nat :=
  match o with
  | some (.nat t) => t
  | _ => 0

/-- `w'` extends `w` by events none of which is an erase or write request. -/
def NoMemOpDelta (w w' : World) : Prop :=
  ∃ Δ, w'.trace = w.trace ++ Δ ∧ ∀ e ∈ Δ, isEraseEvent e = false ∧ isWriteEvent e = false

/-- `w'` extends `w` by events whose erase and write requests (if any) were all
issued while `_running_subtype = r`. -/
def MemOpsAtDelta (r : Option Nat) (w w' : World) : Prop :=
  ∃ Δ, w'.trace = w.trace ++ Δ
    ∧ ∀ e ∈ Δ, isEraseEvent e = true ∨ isWriteEvent e = true → e.running = r

/-- An environment in which every driver request times out. -/
def envNoResp : Env := fun _ _ => none

/-- A concrete world: a Programmer constructed from an app-mode path. -/
def wApp0 : World := { prog := Programmer.init "u/js220/000001", k := 0, trace := [] }

/-- A concrete `ctrl_app` segment. -/
def segApp0 : Segment := { subtype := 3, name := "ctrl_app", version := 100, img := [1, 2, 3] }

/-- A concrete `ctrl_updater1` segment. -/
def segUpd1 : Segment :=
  { subtype := 1, name := "ctrl_updater1", version := 100, img := [1, 2, 3] }

/-- A concrete `ctrl_updater2` segment. -/
def segUpd2 : Segment :=
  { subtype := 2, name := "ctrl_updater2", version := 100, img := [1, 2, 3] }

/-- A concrete environment: the old path stays enumerated forever and the clock
is stuck at 10000 ms. -/
def envTO : Env := fun _ r =>
  match r with
  | .devicePaths => some (.paths ["u/js220/000001"])
  | .timeNow => some (.nat 10000)
  | _ => none

/-- A concrete environment in which both updater probes time out at the reset
request: every publish is unacknowledged, every version query answers
`0x10000`, and everything else succeeds. -/
def envP : Env := fun _ r =>
  match r with
  | .publish _ _ _ => none
  | .query _ => some (.nat 65536)
  | _ => some (.nat 0)

/-- A concrete environment in which publishes time out but close/open
succeed. -/
def envC6 : Env := fun _ r =>
  match r with
  | .closeDev _ => some .pyNone
  | .openDev _ => some .pyNone
  | _ => none

/-- A concrete environment in which every request succeeds and every query
answers `999`: writes work, verification never matches a segment whose
version differs from `999`. -/
def envQ : Env := fun _ r =>
  match r with
  | .query _ => some (.nat 999)
  | _ => some (.nat 0)

/-! ## Proofs -/

theorem M.bind_apply {α β : Type} (x : M α) (f : α → M β) (w : World) :
    (x >>= f) w = match x w with
      | (.ok a, w') => f a w'
      | (.error e, w') => (.error e, w') := rfl

theorem M.bind_ok {α β : Type} (x : M α) (f : α → M β) (w : World) {a : α} {w1 : World}
    (hx : x w = (.ok a, w1)) : (x >>= f) w = f a w1 := by
  rw [M.bind_apply, hx]

theorem M.bind_err {α β : Type} (x : M α) (f : α → M β) (w : World) {e : PyErr} {w1 : World}
    (hx : x w = (.error e, w1)) : (x >>= f) w = (.error e, w1) := by
  rw [M.bind_apply, hx]

theorem M.get_apply (w : World) : M.get w = (.ok w, w) := rfl

theorem M.pure_apply {α : Type} (a : α) (w : World) : (pure a : M α) w = (.ok a, w) := rfl

theorem M.throw_apply {α : Type} (e : PyErr) (w : World) :
    (M.throw e : M α) w = (.error e, w) := rfl

/-- C9: `version_to_str` maps the unknown/missing value to `"?.?.?"`, passes
strings through unchanged, and renders a packed 32-bit integer `v` as
`"{major}.{minor}.{patch}"` with major = bits 24–31, minor = bits 16–23,
patch = bits 0–15; in particular `version_to_str 0x01020003 = "1.2.3"`. -/
theorem version_to_str_correct :
    version_to_str .unknown = "?.?.?"
    ∧ (∀ s, version_to_str (.str s) = s)
    ∧ (∀ v, v < 2 ^ 32 → version_to_str (.num v) =
        toString (v / 2 ^ 24 % 2 ^ 8) ++ "." ++ toString (v / 2 ^ 16 % 2 ^ 8)
          ++ "." ++ toString (v % 2 ^ 16))
    ∧ version_to_str (.num 0x01020003) = "1.2.3" := by
  have hand8 : ∀ x : Nat, x &&& 0xff = x % 2 ^ 8 := by
    intro x
    have h := Nat.and_pow_two_sub_one_eq_mod x 8
    norm_num at h ⊢
    exact h
  have hand16 : ∀ x : Nat, x &&& 0xffff = x % 2 ^ 16 := by
    intro x
    have h := Nat.and_pow_two_sub_one_eq_mod x 16
    norm_num at h ⊢
    exact h
  refine ⟨rfl, fun s => rfl, fun v hv => ?_, by decide⟩
  show toString ((v >>> 24) &&& 0xff) ++ "." ++ toString ((v >>> 16) &&& 0xff)
      ++ "." ++ toString (v &&& 0xffff) = _
  rw [hand8, hand8, hand16, Nat.shiftRight_eq_div_pow, Nat.shiftRight_eq_div_pow]

/-- Witness for `version_to_str_correct` at the packed value `0x01020003`. -/
theorem version_to_str_correct_witness :
    (0x01020003 : Nat) < 2 ^ 32
    ∧ version_to_str (.num 0x01020003) =
        toString (0x01020003 / 2 ^ 24 % 2 ^ 8) ++ "." ++ toString (0x01020003 / 2 ^ 16 % 2 ^ 8)
          ++ "." ++ toString (0x01020003 % 2 ^ 16) :=
  ⟨by norm_num, version_to_str_correct.2.2.1 0x01020003 (by norm_num)⟩

/-- C7: when `running_subtype` already equals the target, `reset_to` returns
immediately: no driver request is issued (call counter and trace unchanged) and
the whole Programmer state is unchanged. -/
theorem reset_to_noop (env : Env) (subtype : Nat) (fuel : Nat) (w : World)
    (h : w.prog.running_subtype = some subtype) :
    Programmer.reset_to env subtype fuel w = (.ok (), w) := by
  simp [Programmer.reset_to, M.bind_apply, M.get_apply, M.pure_apply, h]

/-- Witness for `reset_to_noop`: a Programmer freshly constructed from an
app-mode path is already running `ctrl_app`. -/
theorem reset_to_noop_witness :
    ({ prog := Programmer.init "u/js220/000001", k := 0, trace := [] } : World).prog.running_subtype
        = some SUBTYPE_CTRL_APP
    ∧ Programmer.reset_to (fun _ _ => none) SUBTYPE_CTRL_APP 0
        { prog := Programmer.init "u/js220/000001", k := 0, trace := [] } =
      (.ok (), { prog := Programmer.init "u/js220/000001", k := 0, trace := [] }) :=
  ⟨by decide, reset_to_noop _ _ _ _ (by decide)⟩

/-- C5: at any loop iteration whose remaining bytes are non-empty and either
lack the magic preamble or number fewer than 1024, parsing aborts with the
format error regardless of the segments accumulated so far (no partial map);
the same holds for `release_to_segments` on such an input; and the empty
buffer parses to the empty map. -/
theorem release_format_error :
    (∀ fuel segments img, img ≠ []
        → (MAGIC_HEADER.isPrefixOf img = false ∨ img.length < 1024)
        → release_to_segments_loop (fuel + 1) segments img
            = some (.error (.runtimeError "invalid image")))
    ∧ (∀ img, img ≠ []
        → (MAGIC_HEADER.isPrefixOf img = false ∨ img.length < 1024)
        → release_to_segments img = some (.error (.runtimeError "invalid image")))
    ∧ release_to_segments [] = some (.ok []) := by
  have h1 : ∀ fuel segments img, img ≠ []
      → (MAGIC_HEADER.isPrefixOf img = false ∨ img.length < 1024)
      → release_to_segments_loop (fuel + 1) segments img
          = some (.error (.runtimeError "invalid image")) := by
    intro fuel segments img hne hbad
    have hlen : ¬ img.length = 0 := by
      simpa [List.length_eq_zero] using hne
    unfold release_to_segments_loop
    rw [if_neg hlen]
    rcases hbad with hm | hl
    · rw [if_pos (by simp [hm])]
    · cases hmb : MAGIC_HEADER.isPrefixOf img with
      | false => rw [if_pos (by simp [hmb])]
      | true =>
        rw [if_neg (by simp [hmb]), if_pos hl]
  refine ⟨h1, fun img hne hbad => ?_, rfl⟩
  show release_to_segments_loop (img.length + 1) [] img = _
  exact h1 img.length [] img hne hbad

/-- Witness for `release_format_error`: the one-byte buffer `[0]` is non-empty,
lacks the magic preamble, and aborts with the format error from any loop state. -/
theorem release_format_error_witness :
    ([0] : Bytes) ≠ []
    ∧ MAGIC_HEADER.isPrefixOf [0] = false
    ∧ release_to_segments_loop 1 [] [0] = some (.error (.runtimeError "invalid image"))
    ∧ release_to_segments [0] = some (.error (.runtimeError "invalid image")) :=
  ⟨by decide, by decide,
   release_format_error.1 0 [] [0] (by decide) (Or.inl (by decide)),
   release_format_error.2.1 [0] (by decide) (Or.inl (by decide))⟩

set_option maxRecDepth 20000 in
/-- On `zeroSizeImg` the parser loop makes no progress: the `size` field is 0,
so the cursor never advances and every fuel budget is exhausted. -/
theorem release_loop_zeroSize : ∀ (fuel : Nat) (segments : List (Nat × Segment)),
    release_to_segments_loop fuel segments zeroSizeImg = none := by
  intro fuel
  induction fuel with
  | zero => intro segments; rfl
  | succ n ih =>
    intro segments
    have hstep : release_to_segments_loop (n + 1) segments zeroSizeImg
        = release_to_segments_loop n
            (pyDictInsert segments 1 ⟨1, "ctrl_updater1", 0, []⟩) zeroSizeImg := rfl
    rw [hstep]
    exact ih _

/-- C10 counterexample: on the magic-headed 1024-byte buffer whose `size` field
is zero, `release_to_segments` neither returns a map nor raises an error within
any finite number of loop iterations — the loop runs forever. -/
theorem release_to_segments_zeroSize_diverges :
    release_to_segments zeroSizeImg = none
    ∧ ¬ ∃ fuel, (release_to_segments_loop fuel [] zeroSizeImg).isSome := by
  constructor
  · exact release_loop_zeroSize _ _
  · rintro ⟨fuel, hf⟩
    rw [release_loop_zeroSize fuel []] at hf
    simp at hf

/-- C10 (amended): `release_to_segments` terminates — returns a map or raises an
error after finitely many iterations — on every input all of whose in-bounds
`size` fields are nonzero; with a zero `size` field the loop does not advance
(see the counterexample). -/
theorem release_to_segments_terminates (img : Bytes)
    (h : ∀ k, k + 1024 ≤ img.length → 0 < readU32 (img.drop k) 32) :
    (release_to_segments img).isSome := by
  suffices H : ∀ (fuel : Nat) (img : Bytes), img.length < fuel →
      (∀ k, k + 1024 ≤ img.length → 0 < readU32 (img.drop k) 32) →
      ∀ segments, (release_to_segments_loop fuel segments img).isSome by
    exact H (img.length + 1) img (Nat.lt_succ_self _) h []
  intro fuel
  induction fuel with
  | zero =>
    intro img h0 _ _
    omega
  | succ n ih =>
    intro img hlt hsz segments
    unfold release_to_segments_loop
    by_cases h0 : img.length = 0
    · rw [if_pos h0]; rfl
    rw [if_neg h0]
    by_cases hm : MAGIC_HEADER.isPrefixOf img
    case neg =>
      rw [if_pos (by simpa using hm)]
      rfl
    rw [if_neg (by simpa using hm)]
    by_cases hl : img.length < 1024
    · rw [if_pos hl]; rfl
    rw [if_neg hl]
    have hszpos : 0 < readU32 img 32 := by
      simpa using hsz 0 (by omega)
    cases hT : TARGETS (readU16 img 296) with
    | none => simp [hT]
    | some tgt =>
      simp only [hT]
      have hlen' : (img.drop (readU32 img 32)).length < n := by
        rw [List.length_drop]
        omega
      have hsz' : ∀ k, k + 1024 ≤ (img.drop (readU32 img 32)).length →
          0 < readU32 ((img.drop (readU32 img 32)).drop k) 32 := by
        intro k hk
        rw [List.drop_drop]
        apply hsz
        rw [List.length_drop] at hk
        omega
      exact ih _ hlen' hsz' _

/-- Witness for `release_to_segments_terminates` at the empty buffer. -/
theorem release_to_segments_terminates_witness :
    (∀ k, k + 1024 ≤ ([] : Bytes).length → 0 < readU32 (([] : Bytes).drop k) 32)
    ∧ (release_to_segments ([] : Bytes)).isSome := by
  have hv : ∀ k, k + 1024 ≤ ([] : Bytes).length → 0 < readU32 (([] : Bytes).drop k) 32 := by
    intro k hk
    simp at hk
  exact ⟨hv, release_to_segments_terminates [] hv⟩

theorem pyDictInsert_of_fresh (m : List (Nat × Segment)) (k : Nat) (v : Segment)
    (h : ∀ p ∈ m, p.1 ≠ k) : pyDictInsert m k v = m ++ [(k, v)] := by
  induction m with
  | nil => rfl
  | cons p rest ih =>
    have hp : p.1 ≠ k := h p (List.mem_cons_self _ _)
    simp only [pyDictInsert, if_neg hp, List.cons_append, List.cons.injEq, true_and]
    exact ih fun q hq => h q (List.mem_cons_of_mem _ hq)

theorem length_le_flatten (rs : List Bytes) (h : ∀ r ∈ rs, 1 ≤ r.length) :
    rs.length ≤ rs.flatten.length := by
  induction rs with
  | nil => simp
  | cons r rest ih =>
    have h1 : 1 ≤ r.length := h r (List.mem_cons_self _ _)
    have h2 := ih fun q hq => h q (List.mem_cons_of_mem _ hq)
    simp only [List.flatten_cons, List.length_append, List.length_cons]
    omega

theorem readU16_append (r t : Bytes) (off : Nat) (h : off + 1 < r.length) :
    readU16 (r ++ t) off = readU16 r off := by
  unfold readU16
  rw [List.getD_append _ _ _ _ (by omega), List.getD_append _ _ _ _ (by omega)]

theorem readU32_append (r t : Bytes) (off : Nat) (h : off + 3 < r.length) :
    readU32 (r ++ t) off = readU32 r off := by
  unfold readU32
  rw [List.getD_append _ _ _ _ (by omega), List.getD_append _ _ _ _ (by omega),
    List.getD_append _ _ _ _ (by omega), List.getD_append _ _ _ _ (by omega)]

theorem magic_prefix_append (r t : Bytes) (h : MAGIC_HEADER.isPrefixOf r = true) :
    MAGIC_HEADER.isPrefixOf (r ++ t) = true := by
  rw [List.isPrefixOf_iff_prefix] at h ⊢
  exact h.trans (List.prefix_append r t)

theorem TARGETS_of_known (s : Nat)
    (h : s ∈ [SUBTYPE_CTRL_UPDATER1, SUBTYPE_CTRL_UPDATER2, SUBTYPE_CTRL_APP,
              SUBTYPE_SENSOR_FPGA]) :
    ∃ tgt, TARGETS s = some tgt := by
  simp only [List.mem_cons, List.not_mem_nil, or_false] at h
  rcases h with h | h | h | h <;> subst h <;> exact ⟨_, rfl⟩

/-- Round-trip induction: from any loop state whose accumulated keys avoid the
upcoming subtypes, parsing the concatenation of well-formed records with
pairwise-distinct subtypes appends exactly one entry per record. -/
theorem release_loop_roundtrip (rs : List Bytes) :
    ∀ (fuel : Nat) (segments : List (Nat × Segment)),
      rs.length < fuel
      → (∀ r ∈ rs, wfRecord r)
      → ((rs.map fun r => readU16 r 296).Nodup)
      → (∀ r ∈ rs, ∀ p ∈ segments, p.1 ≠ readU16 r 296)
      → release_to_segments_loop fuel segments rs.flatten
          = some (.ok (segments ++ rs.map fun r => (readU16 r 296, recordSegment r))) := by
  induction rs with
  | nil =>
    intro fuel segments hf _ _ _
    cases fuel with
    | zero => omega
    | succ n => simp [release_to_segments_loop]
  | cons r rest ih =>
    intro fuel segments hf hwf hnd hfresh
    cases fuel with
    | zero => omega
    | succ n =>
      obtain ⟨hm, hsz, hlen, hmem⟩ := hwf r (List.mem_cons_self _ _)
      obtain ⟨tgt, hT⟩ := TARGETS_of_known _ hmem
      have hlena : (r ++ rest.flatten).length = r.length + rest.flatten.length :=
        List.length_append _ _
      have e32 : readU32 (r ++ rest.flatten) 32 = r.length := by
        rw [readU32_append _ _ _ (by omega)]
        exact hsz
      have e288 : readU32 (r ++ rest.flatten) 288 = readU32 r 288 :=
        readU32_append _ _ _ (by omega)
      have e296 : readU16 (r ++ rest.flatten) 296 = readU16 r 296 :=
        readU16_append _ _ _ (by omega)
      have hrec : recordSegment r =
          ⟨readU16 r 296, tgt.name, readU32 r 288, r⟩ := by
        simp [recordSegment, hT]
      rw [List.flatten_cons]
      unfold release_to_segments_loop
      rw [if_neg (by omega), if_neg (by simp [magic_prefix_append _ _ hm]),
        if_neg (by omega)]
      simp only [e32, e288, e296, hT, List.take_left, List.drop_left]
      rw [pyDictInsert_of_fresh _ _ _
        (hfresh r (List.mem_cons_self _ _))]
      have hfresh' : ∀ q ∈ rest, ∀ p ∈ segments ++ [(readU16 r 296, (⟨readU16 r 296,
          tgt.name, readU32 r 288, r⟩ : Segment))], p.1 ≠ readU16 q 296 := by
        intro q hq p hp
        rcases List.mem_append.mp hp with hps | hpr
        · exact hfresh q (List.mem_cons_of_mem _ hq) p hps
        · simp only [List.mem_singleton] at hpr
          subst hpr
          simp only [List.map_cons, List.nodup_cons, List.mem_map] at hnd
          intro hkeq
          exact hnd.1 ⟨q, hq, hkeq.symm⟩
      rw [ih n _ (by simpa using hf)
        (fun q hq => hwf q (List.mem_cons_of_mem _ hq))
        (by simpa using hnd.of_cons) hfresh']
      simp [hrec]

/-- C1: parsing the concatenation of N well-formed segment records with
pairwise-distinct known subtypes returns exactly one map entry per record, in
order: key = encoded subtype, version = encoded version field, img = the whole
`size`-byte record (round-trip law). -/
theorem release_to_segments_roundtrip (rs : List Bytes)
    (hwf : ∀ r ∈ rs, wfRecord r)
    (hnd : (rs.map fun r => readU16 r 296).Nodup) :
    release_to_segments rs.flatten
      = some (.ok (rs.map fun r => (readU16 r 296, recordSegment r))) := by
  have hfuel : rs.length < rs.flatten.length + 1 := by
    have := length_le_flatten rs fun r hr => by
      have := (hwf r hr).2.2.1
      omega
    omega
  have h := release_loop_roundtrip rs (rs.flatten.length + 1) [] hfuel hwf hnd
    (by intro r _ p hp; simp at hp)
  rw [List.nil_append] at h
  exact h

set_option maxRecDepth 40000 in
/-- Witness for `release_to_segments_roundtrip`: a single concrete well-formed
record (size 1024, version 9, subtype `ctrl_app`). -/
theorem release_to_segments_roundtrip_witness :
    (∀ r ∈ [wfRec1], wfRecord r)
    ∧ (([wfRec1].map fun r => readU16 r 296).Nodup)
    ∧ release_to_segments ([wfRec1] : List Bytes).flatten
        = some (.ok ([wfRec1].map fun r => (readU16 r 296, recordSegment r))) := by
  have hwf : ∀ r ∈ [wfRec1], wfRecord r := by
    intro r hr
    simp only [List.mem_singleton] at hr
    subst hr
    exact ⟨by decide, by decide, by decide, by decide⟩
  have hnd : (([wfRec1] : List Bytes).map fun r => readU16 r 296).Nodup := by
    simp
  exact ⟨hwf, hnd, release_to_segments_roundtrip [wfRec1] hwf hnd⟩

/-! ### Small-step equations for the driver primitives -/

theorem drvCall_apply (env : Env) (r : Req) (w : World) :
    drvCall env r w = (.ok (env w.k r), pushEvent w r) := rfl

theorem doProgress_apply (env : Env) (c : Nat) (m : String) (w : World) :
    doProgress env c m w = (.ok (), pushEvent w (.progress c m)) := rfl

theorem doSleep_apply (env : Env) (ms : Nat) (w : World) :
    doSleep env ms w = (.ok (), pushEvent w (.sleep ms)) := rfl

theorem Driver.publish_apply (env : Env) (t : String) (v : DVal) (tmo : Option Nat) (w : World) :
    Driver.publish env t v tmo w =
      (match env w.k (.publish t v tmo) with
       | none => (.error (.timeoutError t), pushEvent w (.publish t v tmo))
       | some _ => (.ok (), pushEvent w (.publish t v tmo))) := by
  unfold Driver.publish
  rw [M.bind_apply, drvCall_apply]
  cases h : env w.k (.publish t v tmo) <;> simp [M.throw_apply, M.pure_apply]

theorem Driver.query_apply (env : Env) (t : String) (w : World) :
    Driver.query env t w =
      (match env w.k (.query t) with
       | none => (.error (.timeoutError t), pushEvent w (.query t))
       | some v => (.ok v, pushEvent w (.query t))) := by
  unfold Driver.query
  rw [M.bind_apply, drvCall_apply]
  cases h : env w.k (.query t) <;> simp [M.throw_apply, M.pure_apply]

theorem Driver.openDev_apply (env : Env) (p : String) (w : World) :
    Driver.openDev env p w =
      (match env w.k (.openDev p) with
       | none => (.error (.timeoutError p), pushEvent w (.openDev p))
       | some _ => (.ok (), pushEvent w (.openDev p))) := by
  unfold Driver.openDev
  rw [M.bind_apply, drvCall_apply]
  cases h : env w.k (.openDev p) <;> simp [M.throw_apply, M.pure_apply]

theorem Driver.closeDev_apply (env : Env) (p : String) (w : World) :
    Driver.closeDev env p w =
      (match env w.k (.closeDev p) with
       | none => (.error (.timeoutError p), pushEvent w (.closeDev p))
       | some _ => (.ok (), pushEvent w (.closeDev p))) := by
  unfold Driver.closeDev
  rw [M.bind_apply, drvCall_apply]
  cases h : env w.k (.closeDev p) <;> simp [M.throw_apply, M.pure_apply]

theorem Driver.device_paths_apply (env : Env) (w : World) :
    Driver.device_paths env w =
      (.ok (match env w.k .devicePaths with
            | some (.paths ps) => ps
            | _ => []), pushEvent w .devicePaths) := by
  unfold Driver.device_paths
  rw [M.bind_apply, drvCall_apply]
  rcases h : env w.k .devicePaths with _ | v
  · simp [M.pure_apply]
  · cases v <;> simp [M.pure_apply]

theorem timeNow_apply (env : Env) (w : World) :
    timeNow env w =
      (.ok (match env w.k .timeNow with
            | some (.nat t) => t
            | _ => 0), pushEvent w .timeNow) := by
  unfold timeNow
  rw [M.bind_apply, drvCall_apply]
  rcases h : env w.k .timeNow with _ | v
  · simp [M.pure_apply]
  · cases v <;> simp [M.pure_apply]

theorem Programmer.version_apply (env : Env) (w : World) :
    Programmer.version env w = Driver.query env (w.prog.path ++ "/c/fw/version") w := rfl

theorem Programmer.target_id_apply (env : Env) (w : World) :
    Programmer.target_id env w = Driver.query env (w.prog.path ++ "/c/target") w := rfl

theorem prog_query_apply (env : Env) (t : String) (w : World) :
    Programmer.query env t w = Driver.query env (w.prog.path ++ "/" ++ t) w := rfl

theorem prog_publish_apply (env : Env) (t : String) (v : DVal) (tmo : Option Nat)
    (w : World) :
    Programmer.publish env t v tmo w = Driver.publish env (w.prog.path ++ "/" ++ t) v tmo w := rfl

theorem Programmer.openSelf_apply (env : Env) (w : World) :
    Programmer.openSelf env w = Driver.openDev env w.prog.path w := rfl

theorem Programmer.closeSelf_apply (env : Env) (w : World) :
    Programmer.closeSelf env w = Driver.closeDev env w.prog.path w := rfl

theorem pushEvent_prog (w : World) (r : Req) : (pushEvent w r).prog = w.prog := rfl

theorem pushEvent_k (w : World) (r : Req) : (pushEvent w r).k = w.k + 1 := rfl

theorem pushEvent_trace (w : World) (r : Req) :
    (pushEvent w r).trace = w.trace ++ [⟨r, w.prog.running_subtype⟩] := rfl

/-! ### Trace-delta combinators -/

theorem traceExtends_refl (w : World) : TraceExtends w w := ⟨[], by simp⟩

theorem traceExtends_trans {w w' w'' : World}
    (h1 : TraceExtends w w') (h2 : TraceExtends w' w'') : TraceExtends w w'' := by
  obtain ⟨a, ha⟩ := h1
  obtain ⟨b, hb⟩ := h2
  exact ⟨a ++ b, by simp [hb, ha]⟩

theorem noMemOp_refl (w : World) : NoMemOpDelta w w :=
  ⟨[], by simp, fun e he => absurd he (List.not_mem_nil e)⟩

theorem noMemOp_trans {w w' w'' : World}
    (h1 : NoMemOpDelta w w') (h2 : NoMemOpDelta w' w'') : NoMemOpDelta w w'' := by
  obtain ⟨a, ha, hpa⟩ := h1
  obtain ⟨b, hb, hpb⟩ := h2
  refine ⟨a ++ b, by simp [hb, ha], fun e he => ?_⟩
  rcases List.mem_append.mp he with h | h
  · exact hpa e h
  · exact hpb e h

theorem memOpsAt_refl (r : Option Nat) (w : World) : MemOpsAtDelta r w w :=
  ⟨[], by simp, fun e he => absurd he (List.not_mem_nil e)⟩

theorem memOpsAt_trans {r : Option Nat} {w w' w'' : World}
    (h1 : MemOpsAtDelta r w w') (h2 : MemOpsAtDelta r w' w'') : MemOpsAtDelta r w w'' := by
  obtain ⟨a, ha, hpa⟩ := h1
  obtain ⟨b, hb, hpb⟩ := h2
  refine ⟨a ++ b, by simp [hb, ha], fun e he => ?_⟩
  rcases List.mem_append.mp he with h | h
  · exact hpa e h
  · exact hpb e h

theorem NoMemOpDelta.memOpsAt {r : Option Nat} {w w' : World}
    (h : NoMemOpDelta w w') : MemOpsAtDelta r w w' := by
  obtain ⟨a, ha, hpa⟩ := h
  refine ⟨a, ha, fun e he hm => ?_⟩
  rcases hm with hm | hm
  · rw [(hpa e he).1] at hm
    cases hm
  · rw [(hpa e he).2] at hm
    cases hm

theorem noMemOp_bind {α β : Type} (x : M α) (f : α → M β)
    (hx : ∀ w, NoMemOpDelta w (x w).2)
    (hf : ∀ a w, NoMemOpDelta w (f a w).2) :
    ∀ w, NoMemOpDelta w ((x >>= f) w).2 := by
  intro w
  rw [M.bind_apply]
  rcases hxw : x w with ⟨r, w1⟩
  have h1 := hx w
  rw [hxw] at h1
  cases r with
  | error e => exact h1
  | ok a =>
    have h2 := hf a w1
    exact noMemOp_trans h1 h2

theorem memOpsAt_bind {α β : Type} (r : Option Nat) (x : M α) (f : α → M β)
    (hx : ∀ w, MemOpsAtDelta r w (x w).2)
    (hf : ∀ a w, MemOpsAtDelta r w (f a w).2) :
    ∀ w, MemOpsAtDelta r w ((x >>= f) w).2 := by
  intro w
  rw [M.bind_apply]
  rcases hxw : x w with ⟨res, w1⟩
  have h1 := hx w
  rw [hxw] at h1
  cases res with
  | error e => exact h1
  | ok a =>
    have h2 := hf a w1
    exact memOpsAt_trans h1 h2

theorem pushEvent_noMemOp (w : World) (r : Req)
    (h : isEraseReq r = false ∧ isWriteReq r = false) : NoMemOpDelta w (pushEvent w r) := by
  refine ⟨[⟨r, w.prog.running_subtype⟩], rfl, fun e he => ?_⟩
  rw [List.mem_singleton] at he
  subst he
  exact h

theorem pushEvent_memOpsAt (r' : Option Nat) (w : World) (r : Req)
    (h : isEraseReq r = true ∨ isWriteReq r = true → w.prog.running_subtype = r') :
    MemOpsAtDelta r' w (pushEvent w r) := by
  refine ⟨[⟨r, w.prog.running_subtype⟩], rfl, fun e he hm => ?_⟩
  rw [List.mem_singleton] at he
  subst he
  exact h hm

/-- Lift a reflexive-transitive world relation through `bind`. -/
theorem rel_bind {R : World → World → Prop}
    (hrefl : ∀ w, R w w) (htrans : ∀ {a b c : World}, R a b → R b c → R a c)
    {α β : Type} (x : M α) (f : α → M β)
    (hx : ∀ w, R w (x w).2) (hf : ∀ a w, R w (f a w).2) :
    ∀ w, R w ((x >>= f) w).2 := by
  intro w
  rw [M.bind_apply]
  rcases hxw : x w with ⟨r, w1⟩
  have h1 := hx w
  rw [hxw] at h1
  cases r with
  | error e => exact h1
  | ok a => exact htrans h1 (hf a w1)

theorem M.get_noMemOp : ∀ w, NoMemOpDelta w (M.get w).2 := fun w => noMemOp_refl w

theorem M.throw_noMemOp {α : Type} (e : PyErr) :
    ∀ w, NoMemOpDelta w ((M.throw e : M α) w).2 := fun w => noMemOp_refl w

theorem M.pure_noMemOp {α : Type} (a : α) :
    ∀ w, NoMemOpDelta w ((pure a : M α) w).2 := fun w => noMemOp_refl w

theorem M.modifyProg_noMemOp (f : PState → PState) :
    ∀ w, NoMemOpDelta w ((M.modifyProg f) w).2 :=
  fun w => ⟨[], by simp [M.modifyProg], fun e he => absurd he (List.not_mem_nil e)⟩

theorem device_paths_noMemOp (env : Env) : ∀ w, NoMemOpDelta w ((Driver.device_paths env) w).2 := by
  intro w
  rw [Driver.device_paths_apply]
  exact pushEvent_noMemOp _ _ ⟨rfl, rfl⟩

theorem timeNow_noMemOp (env : Env) : ∀ w, NoMemOpDelta w ((timeNow env) w).2 := by
  intro w
  rw [timeNow_apply]
  exact pushEvent_noMemOp _ _ ⟨rfl, rfl⟩

theorem doSleep_noMemOp (env : Env) (ms : Nat) : ∀ w, NoMemOpDelta w ((doSleep env ms) w).2 := by
  intro w
  rw [doSleep_apply]
  exact pushEvent_noMemOp _ _ ⟨rfl, rfl⟩

theorem doProgress_noMemOp (env : Env) (c : Nat) (m : String) :
    ∀ w, NoMemOpDelta w ((doProgress env c m) w).2 := by
  intro w
  rw [doProgress_apply]
  exact pushEvent_noMemOp _ _ ⟨rfl, rfl⟩

theorem query_noMemOp (env : Env) (t : String) :
    ∀ w, NoMemOpDelta w ((Driver.query env t) w).2 := by
  intro w
  rw [Driver.query_apply]
  cases env w.k (.query t) <;> exact pushEvent_noMemOp _ _ ⟨rfl, rfl⟩

theorem openDev_noMemOp (env : Env) (p : String) :
    ∀ w, NoMemOpDelta w ((Driver.openDev env p) w).2 := by
  intro w
  rw [Driver.openDev_apply]
  cases env w.k (.openDev p) <;> exact pushEvent_noMemOp _ _ ⟨rfl, rfl⟩

theorem closeDev_noMemOp (env : Env) (p : String) :
    ∀ w, NoMemOpDelta w ((Driver.closeDev env p) w).2 := by
  intro w
  rw [Driver.closeDev_apply]
  cases env w.k (.closeDev p) <;> exact pushEvent_noMemOp _ _ ⟨rfl, rfl⟩

/-- `publish` issues no erase/write request when its value is not a memory
payload or its timeout is not the 10-second one. -/
theorem publish_noMemOp (env : Env) (t : String) (v : DVal) (tmo : Option Nat)
    (hv : isEraseReq (.publish t v tmo) = false ∧ isWriteReq (.publish t v tmo) = false) :
    ∀ w, NoMemOpDelta w ((Driver.publish env t v tmo) w).2 := by
  intro w
  rw [Driver.publish_apply]
  cases env w.k (.publish t v tmo) <;> exact pushEvent_noMemOp _ _ hv

theorem device_await_removal_noMemOp (env : Env) (t_end : Nat) :
    ∀ fuel w, NoMemOpDelta w ((Programmer.device_await_removal env t_end fuel) w).2 := by
  intro fuel
  induction fuel with
  | zero => intro w; exact noMemOp_refl w
  | succ n ih =>
    intro w
    unfold Programmer.device_await_removal
    refine noMemOp_bind _ _ M.get_noMemOp (fun a w' => ?_) w
    refine noMemOp_bind _ _ (device_paths_noMemOp env) (fun dp w'' => ?_) w'
    by_cases hc : (dp.filter (fun d => d == a.prog.path)).isEmpty
    · simp only [hc, if_true]
      exact noMemOp_refl _
    · simp only [hc, if_false]
      refine noMemOp_bind _ _ (timeNow_noMemOp env) (fun t w3 => ?_) w''
      by_cases ht : t_end < t
      · simp only [ht, if_true]
        exact noMemOp_refl _
      · simp only [ht, if_false]
        exact ih _

theorem device_await_appear_noMemOp (env : Env) (dp : String) (t_end : Nat) :
    ∀ fuel w, NoMemOpDelta w ((Programmer.device_await_appear env dp t_end fuel) w).2 := by
  intro fuel
  induction fuel with
  | zero => intro w; exact noMemOp_refl w
  | succ n ih =>
    intro w
    unfold Programmer.device_await_appear
    refine noMemOp_bind _ _ (device_paths_noMemOp env) (fun ps w' => ?_) w
    rcases hdev : ps.filter (fun d => d == dp) with _ | ⟨d, rest⟩
    · simp only [hdev]
      refine noMemOp_bind _ _ (timeNow_noMemOp env) (fun t w'' => ?_) w'
      by_cases ht : t_end < t
      · simp only [ht, if_true]
        exact noMemOp_refl _
      · simp only [ht, if_false]
        refine noMemOp_bind _ _ (doSleep_noMemOp env 100) (fun u w3 => ?_) w''
        exact ih _
    · simp only [hdev]
      exact M.modifyProg_noMemOp _ _

theorem device_await_noMemOp (env : Env) (dp : String) (tmo : Option Nat) (fuel : Nat) :
    ∀ w, NoMemOpDelta w ((Programmer.device_await env dp tmo fuel) w).2 := by
  intro w
  unfold Programmer.device_await
  refine noMemOp_bind _ _ (timeNow_noMemOp env) (fun t0 w' => ?_) w
  refine noMemOp_bind _ _ (device_await_removal_noMemOp env _ fuel) (fun u w'' => ?_) w'
  exact device_await_appear_noMemOp env dp _ fuel _

/-- `reset_to` never issues an erase or write request. -/
theorem reset_to_noMemOp (env : Env) (st : Nat) (fuel : Nat) :
    ∀ w, NoMemOpDelta w ((Programmer.reset_to env st fuel) w).2 := by
  intro w
  unfold Programmer.reset_to
  refine noMemOp_bind _ _ M.get_noMemOp (fun a w' => ?_) w
  by_cases hrun : a.prog.running_subtype = some st
  · simp only [hrun, if_true]
    exact M.pure_noMemOp _ _
  · simp only [hrun, if_false]
    rcases hsr : SUBTYPE_RESET st with _ | rt
    · exact M.throw_noMemOp _ _
    · refine noMemOp_bind _ _
        (publish_noMemOp env _ (resetVal rt) none (by cases rt <;> exact ⟨rfl, rfl⟩))
        (fun u w1 => ?_) w'
      refine noMemOp_bind _ _ (closeDev_noMemOp env _) (fun u2 w2 => ?_) w1
      refine noMemOp_bind _ _ (device_await_noMemOp env _ none fuel) (fun u3 w3 => ?_) w2
      refine noMemOp_bind _ _ (M.modifyProg_noMemOp _) (fun u4 w4 => ?_) w3
      refine noMemOp_bind _ _ M.get_noMemOp (fun a5 w5 => ?_) w4
      exact openDev_noMemOp env _ _

theorem countErase_append (a b : List Event) :
    countErase (a ++ b) = countErase a + countErase b := by
  simp [countErase, List.filter_append]

theorem countWrite_append (a b : List Event) :
    countWrite (a ++ b) = countWrite a + countWrite b := by
  simp [countWrite, List.filter_append]

theorem countErase_of_noMemOp {w w' : World} (h : NoMemOpDelta w w') :
    countErase w'.trace = countErase w.trace
    ∧ countWrite w'.trace = countWrite w.trace := by
  obtain ⟨Δ, hΔ, hp⟩ := h
  rw [hΔ, countErase_append, countWrite_append]
  have he : countErase Δ = 0 := by
    simp only [countErase, List.length_eq_zero, List.filter_eq_nil_iff]
    intro e he
    simpa [isEraseEvent] using (hp e he).1
  have hw : countWrite Δ = 0 := by
    simp only [countWrite, List.length_eq_zero, List.filter_eq_nil_iff]
    intro e he
    simpa [isWriteEvent] using (hp e he).2
  omega

/-- When `reset_to` returns normally, `_running_subtype` equals the target. -/
theorem reset_to_ok_running (env : Env) (st fuel : Nat) (w : World) {a : Unit} {w' : World}
    (h : Programmer.reset_to env st fuel w = (.ok a, w')) :
    w'.prog.running_subtype = some st := by
  unfold Programmer.reset_to at h
  rw [M.bind_ok _ _ _ (M.get_apply w)] at h
  by_cases hrun : w.prog.running_subtype = some st
  · rw [if_pos hrun, M.pure_apply, Prod.mk.injEq] at h
    obtain ⟨h1, h2⟩ := h
    subst h2
    exact hrun
  · rw [if_neg hrun] at h
    rcases hsr : SUBTYPE_RESET st with _ | rt
    · rw [hsr] at h
      dsimp only [] at h
      rw [M.throw_apply] at h
      simp at h
    · rw [hsr] at h
      dsimp only [] at h
      rcases hp : Driver.publish env (w.prog.path ++ "/h/!reset") (resetVal rt) none w
        with ⟨pr, w1⟩
      cases pr with
      | error e =>
        rw [M.bind_err _ _ _ hp] at h
        simp at h
      | ok u =>
        rw [M.bind_ok _ _ _ hp] at h
        rcases hc : Driver.closeDev env w.prog.path w1 with ⟨cr, w2⟩
        cases cr with
        | error e =>
          rw [M.bind_err _ _ _ hc] at h
          simp at h
        | ok u2 =>
          rw [M.bind_ok _ _ _ hc] at h
          rcases ha : Programmer.device_await env
            (if st = SUBTYPE_CTRL_APP then w.prog.path_app else w.prog.path_updater)
            none fuel w2 with ⟨ar, w3⟩
          cases ar with
          | error e =>
            rw [M.bind_err _ _ _ ha] at h
            simp at h
          | ok u3 =>
            rw [M.bind_ok _ _ _ ha] at h
            rw [M.bind_ok _ _ _
              (show M.modifyProg (fun p => { p with running_subtype := some st }) w3
                = (.ok (), { w3 with prog := { w3.prog with running_subtype := some st } })
                from rfl)] at h
            rw [M.bind_ok _ _ _ (M.get_apply _), Driver.openDev_apply] at h
            rcases ho : env ({ w3 with prog :=
                { w3.prog with running_subtype := some st } } : World).k
                (.openDev ({ w3 with prog :=
                  { w3.prog with running_subtype := some st } } : World).prog.path)
              with _ | v
            · rw [ho] at h
              simp at h
            · rw [ho, Prod.mk.injEq] at h
              obtain ⟨h1, h2⟩ := h
              subst h2
              rfl

theorem TARGETS_upd1 : TARGETS SUBTYPE_CTRL_UPDATER1
    = some ⟨SUBTYPE_CTRL_UPDATER1, "ctrl_updater1", "h/mem/c/upd1", some CTRL_TYPE_UPD1⟩ := rfl

theorem TARGETS_upd2 : TARGETS SUBTYPE_CTRL_UPDATER2
    = some ⟨SUBTYPE_CTRL_UPDATER2, "ctrl_updater2", "h/mem/c/upd2", some CTRL_TYPE_UPD2⟩ := rfl

theorem TARGETS_app : TARGETS SUBTYPE_CTRL_APP
    = some ⟨SUBTYPE_CTRL_APP, "ctrl_app", "h/mem/c/app", some CTRL_TYPE_APP⟩ := rfl

theorem TARGETS_fpga : TARGETS SUBTYPE_SENSOR_FPGA
    = some ⟨SUBTYPE_SENSOR_FPGA, "sensor_fpga", "h/mem/s/app1", none⟩ := rfl

/-- A timed-out publish makes the whole bind chain stop with the TimeoutError
at its topic. -/
theorem publish_step_timeout (env : Env) (topic : String) (v : DVal) (tmo : Option Nat)
    {α : Type} (rest : Unit → M α) (w2 : World)
    (henv : env w2.k (.publish (w2.prog.path ++ "/" ++ topic) v tmo) = none) :
    (Programmer.publish env topic v tmo >>= rest) w2
      = (.error (.timeoutError (w2.prog.path ++ "/" ++ topic)),
         pushEvent w2 (.publish (w2.prog.path ++ "/" ++ topic) v tmo)) := by
  refine M.bind_err _ _ _ ?_
  rw [prog_publish_apply, Driver.publish_apply, henv]

/-- An acknowledged publish records its request and continues. -/
theorem publish_step_ok (env : Env) (topic : String) (v : DVal) (tmo : Option Nat)
    {α : Type} (rest : Unit → M α) (w2 : World)
    (henv : env w2.k (.publish (w2.prog.path ++ "/" ++ topic) v tmo) ≠ none) :
    (Programmer.publish env topic v tmo >>= rest) w2
      = rest () (pushEvent w2 (.publish (w2.prog.path ++ "/" ++ topic) v tmo)) := by
  refine M.bind_ok _ _ _ ?_
  rw [prog_publish_apply, Driver.publish_apply]
  rcases h : env w2.k (.publish (w2.prog.path ++ "/" ++ topic) v tmo) with _ | v2
  · exact absurd h henv
  · rfl

/-- If the environment times out the request issued two calls after entry (the
erase request, for a segment with no pre-reset), the attempt loop stops at once
with that TimeoutError: exactly one erase was issued, no write, no next attempt. -/
theorem seg_loop_erase_timeout (env : Env) (seg : Segment) (tgt : Target) (msg : String)
    (p1 p2 fuel rem : Nat) (w : World)
    (hsub : seg.subtype = SUBTYPE_CTRL_APP)
    (henv : ∀ t v tmo, env (w.k + 2) (.publish t v tmo) = none) :
    Programmer.segment_program_loop env seg tgt msg p1 p2 fuel (rem + 1) w
      = (.error (.timeoutError (w.prog.path ++ "/" ++ (tgt.mem_region ++ "/!erase"))),
         pushEvent (pushEvent (pushEvent w
             (.progress p1 (msg ++ attemptMsg (10 - (rem + 1)))))
             (.progress p1 (msg ++ " erase" ++ attemptMsg (10 - (rem + 1)))))
             (.publish (w.prog.path ++ "/" ++ (tgt.mem_region ++ "/!erase"))
               (.nat 0) (some 10000))) := by
  unfold Programmer.segment_program_loop
  rw [M.bind_ok _ _ _ (doProgress_apply env p1 _ w)]
  rw [hsub, if_neg (by decide), if_neg (by decide)]
  rw [M.bind_ok _ _ _ (M.pure_apply () _)]
  simp only []
  rw [M.bind_ok _ _ _ (doProgress_apply env p1 _ _)]
  rw [publish_step_timeout env (tgt.mem_region ++ "/!erase") _ _ _ _ (henv _ _ _)]
  rfl

/-- If the erase succeeds but the write request (issued two calls later) times
out, the attempt loop stops at once with that TimeoutError: one erase, one
write, no next attempt. -/
theorem seg_loop_write_timeout (env : Env) (seg : Segment) (tgt : Target) (msg : String)
    (p1 p2 fuel rem : Nat) (w : World)
    (hsub : seg.subtype = SUBTYPE_CTRL_APP)
    (henvE : ∀ t v tmo, env (w.k + 2) (.publish t v tmo) ≠ none)
    (henvW : ∀ t v tmo, env (w.k + 4) (.publish t v tmo) = none) :
    Programmer.segment_program_loop env seg tgt msg p1 p2 fuel (rem + 1) w
      = (.error (.timeoutError (w.prog.path ++ "/" ++ (tgt.mem_region ++ "/!write"))),
         pushEvent (pushEvent (pushEvent (pushEvent (pushEvent w
             (.progress p1 (msg ++ attemptMsg (10 - (rem + 1)))))
             (.progress p1 (msg ++ " erase" ++ attemptMsg (10 - (rem + 1)))))
             (.publish (w.prog.path ++ "/" ++ (tgt.mem_region ++ "/!erase"))
               (.nat 0) (some 10000)))
             (.progress p2 (msg ++ " write" ++ attemptMsg (10 - (rem + 1)))))
             (.publish (w.prog.path ++ "/" ++ (tgt.mem_region ++ "/!write"))
               (.bytes seg.img) (some 10000))) := by
  unfold Programmer.segment_program_loop
  rw [M.bind_ok _ _ _ (doProgress_apply env p1 _ w)]
  rw [hsub, if_neg (by decide), if_neg (by decide)]
  rw [M.bind_ok _ _ _ (M.pure_apply () _)]
  simp only []
  rw [M.bind_ok _ _ _ (doProgress_apply env p1 _ _)]
  rw [publish_step_ok env (tgt.mem_region ++ "/!erase") _ _ _ _ (henvE _ _ _)]
  rw [M.bind_ok _ _ _ (doProgress_apply env p2 _ _)]
  rw [publish_step_timeout env (tgt.mem_region ++ "/!write") _ _ _ _ (henvW _ _ _)]
  rfl

theorem countErase_push (w : World) (r : Req) :
    countErase (pushEvent w r).trace
      = countErase w.trace + countErase [⟨r, w.prog.running_subtype⟩] := by
  rw [pushEvent_trace, countErase_append]

theorem countWrite_push (w : World) (r : Req) :
    countWrite (pushEvent w r).trace
      = countWrite w.trace + countWrite [⟨r, w.prog.running_subtype⟩] := by
  rw [pushEvent_trace, countWrite_append]

theorem countErase_one_progress (c : Nat) (m : String) (s : Option Nat) :
    countErase [⟨.progress c m, s⟩] = 0 := rfl

theorem countErase_one_erase (t : String) (s : Option Nat) :
    countErase [⟨.publish t (.nat 0) (some 10000), s⟩] = 1 := rfl

theorem countErase_one_write (t : String) (b : Bytes) (s : Option Nat) :
    countErase [⟨.publish t (.bytes b) (some 10000), s⟩] = 0 := rfl

theorem countWrite_one_progress (c : Nat) (m : String) (s : Option Nat) :
    countWrite [⟨.progress c m, s⟩] = 0 := rfl

theorem countWrite_one_erase (t : String) (s : Option Nat) :
    countWrite [⟨.publish t (.nat 0) (some 10000), s⟩] = 0 := rfl

theorem countWrite_one_write (t : String) (b : Bytes) (s : Option Nat) :
    countWrite [⟨.publish t (.bytes b) (some 10000), s⟩] = 1 := rfl

theorem pushEvent_trace_len (w : World) (r : Req) :
    (pushEvent w r).trace.length = w.trace.length + 1 := by
  rw [pushEvent_trace]
  simp

/-- C3 (amended): a TimeoutError on an erase request, a write request, or the
reset-await propagates immediately out of `segment_program`: the run ends with
that TimeoutError, no further attempt begins, and no retry is consumed.  Only
verification mismatch loops to the next attempt. -/
theorem segment_program_timeout_propagates :
    (∀ env seg msg p1 p2 fuel w, seg.subtype = SUBTYPE_CTRL_APP
      → (∀ t v tmo, env (w.k + 2) (.publish t v tmo) = none)
      → ∃ m w', Programmer.segment_program env seg msg p1 p2 fuel w
            = (.error (.timeoutError m), w')
          ∧ countErase w'.trace = countErase w.trace + 1
          ∧ countWrite w'.trace = countWrite w.trace
          ∧ w'.trace.length = w.trace.length + 3)
    ∧ (∀ env seg msg p1 p2 fuel w, seg.subtype = SUBTYPE_CTRL_APP
      → (∀ t v tmo, env (w.k + 2) (.publish t v tmo) ≠ none)
      → (∀ t v tmo, env (w.k + 4) (.publish t v tmo) = none)
      → ∃ m w', Programmer.segment_program env seg msg p1 p2 fuel w
            = (.error (.timeoutError m), w')
          ∧ countErase w'.trace = countErase w.trace + 1
          ∧ countWrite w'.trace = countWrite w.trace + 1
          ∧ w'.trace.length = w.trace.length + 5)
    ∧ (∀ env seg msg p1 p2 fuel w m w2, seg.subtype = SUBTYPE_CTRL_UPDATER1
      → Programmer.reset_to env SUBTYPE_CTRL_UPDATER2 fuel
          (pushEvent w (.progress p1 (msg ++ attemptMsg 0))) = (.error (.timeoutError m), w2)
      → Programmer.segment_program env seg msg p1 p2 fuel w
          = (.error (.timeoutError m), w2)
        ∧ countErase w2.trace = countErase w.trace
        ∧ countWrite w2.trace = countWrite w.trace) := by
  refine ⟨?_, ?_, ?_⟩
  · intro env seg msg p1 p2 fuel w hsub henv
    have h := seg_loop_erase_timeout env seg
      ⟨SUBTYPE_CTRL_APP, "ctrl_app", "h/mem/c/app", some CTRL_TYPE_APP⟩
      msg p1 p2 fuel 9 w hsub henv
    have hs : Programmer.segment_program env seg msg p1 p2 fuel w
        = Programmer.segment_program_loop env seg
            ⟨SUBTYPE_CTRL_APP, "ctrl_app", "h/mem/c/app", some CTRL_TYPE_APP⟩
            msg p1 p2 fuel 10 w := by
      unfold Programmer.segment_program
      rw [hsub, TARGETS_app]
    refine ⟨_, _, hs.trans h, ?_, ?_, ?_⟩
    · simp [countErase_push, countErase_one_progress, countErase_one_erase,
        countErase_one_write]
    · simp [countWrite_push, countWrite_one_progress, countWrite_one_erase,
        countWrite_one_write]
    · simp [pushEvent_trace_len]
  · intro env seg msg p1 p2 fuel w hsub henvE henvW
    have h := seg_loop_write_timeout env seg
      ⟨SUBTYPE_CTRL_APP, "ctrl_app", "h/mem/c/app", some CTRL_TYPE_APP⟩
      msg p1 p2 fuel 9 w hsub henvE henvW
    have hs : Programmer.segment_program env seg msg p1 p2 fuel w
        = Programmer.segment_program_loop env seg
            ⟨SUBTYPE_CTRL_APP, "ctrl_app", "h/mem/c/app", some CTRL_TYPE_APP⟩
            msg p1 p2 fuel 10 w := by
      unfold Programmer.segment_program
      rw [hsub, TARGETS_app]
    refine ⟨_, _, hs.trans h, ?_, ?_, ?_⟩
    · simp [countErase_push, countErase_one_progress, countErase_one_erase,
        countErase_one_write]
    · simp [countWrite_push, countWrite_one_progress, countWrite_one_erase,
        countWrite_one_write]
    · simp [pushEvent_trace_len]
  · intro env seg msg p1 p2 fuel w m w2 hsub hreset
    have hnm := reset_to_noMemOp env SUBTYPE_CTRL_UPDATER2 fuel
      (pushEvent w (.progress p1 (msg ++ attemptMsg 0)))
    rw [hreset] at hnm
    have hcnt := countErase_of_noMemOp hnm
    refine ⟨?_, ?_, ?_⟩
    · unfold Programmer.segment_program
      rw [hsub, TARGETS_upd1]
      dsimp only []
      unfold Programmer.segment_program_loop
      rw [M.bind_ok _ _ _ (doProgress_apply env p1 _ w)]
      rw [hsub, if_pos rfl]
      rw [M.bind_err _ _ _ hreset]
    · rw [hcnt.1]
      simp [countErase_push, countErase_one_progress]
    · rw [hcnt.2]
      simp [countWrite_push, countWrite_one_progress]

/-- C3 counterexample: with every driver request timing out, `segment_program`
on a `ctrl_app` segment ends at once with the TimeoutError of the first erase
request — one erase issued, three events total, no second attempt — instead of
consuming one of the 10 attempts and retrying. -/
theorem segment_program_timeout_cx :
    (Programmer.segment_program envNoResp segApp0
        "Program controller application" 65 90 5 wApp0).1
      = .error (.timeoutError "u/js220/000001/h/mem/c/app/!erase")
    ∧ countErase (Programmer.segment_program envNoResp segApp0
        "Program controller application" 65 90 5 wApp0).2.trace = 1
    ∧ (Programmer.segment_program envNoResp segApp0
        "Program controller application" 65 90 5 wApp0).2.trace.length = 3 :=
  ⟨rfl, rfl, rfl⟩

/-- Witness for `segment_program_timeout_propagates` at a concrete
all-timeout environment. -/
theorem segment_program_timeout_propagates_witness :
    segApp0.subtype = SUBTYPE_CTRL_APP
    ∧ (∀ t v tmo, envNoResp (wApp0.k + 2) (.publish t v tmo) = none)
    ∧ ∃ m w', Programmer.segment_program envNoResp segApp0 "m" 1 2 5 wApp0
          = (.error (.timeoutError m), w')
        ∧ countErase w'.trace = countErase wApp0.trace + 1
        ∧ countWrite w'.trace = countWrite wApp0.trace
        ∧ w'.trace.length = wApp0.trace.length + 3 :=
  ⟨rfl, fun _ _ _ => rfl,
   segment_program_timeout_propagates.1 envNoResp segApp0 "m" 1 2 5 wApp0 rfl
     (fun _ _ _ => rfl)⟩

theorem noMemOp_traceExtends {w w' : World} (h : NoMemOpDelta w w') :
    TraceExtends w w' := by
  obtain ⟨Δ, hΔ, _⟩ := h
  exact ⟨Δ, hΔ⟩

theorem memOpsAt_traceExtends {r : Option Nat} {w w' : World}
    (h : MemOpsAtDelta r w w') : TraceExtends w w' := by
  obtain ⟨Δ, hΔ, _⟩ := h
  exact ⟨Δ, hΔ⟩

theorem pushEvent_extends (w : World) (r : Req) : TraceExtends w (pushEvent w r) :=
  ⟨[⟨r, w.prog.running_subtype⟩], rfl⟩

theorem publish_extends (env : Env) (t : String) (v : DVal) (tmo : Option Nat) :
    ∀ w, TraceExtends w ((Driver.publish env t v tmo) w).2 := by
  intro w
  rw [Driver.publish_apply]
  cases env w.k (.publish t v tmo) <;> exact pushEvent_extends _ _

theorem prog_publish_extends (env : Env) (t : String) (v : DVal) (tmo : Option Nat) :
    ∀ w, TraceExtends w ((Programmer.publish env t v tmo) w).2 := by
  intro w
  rw [prog_publish_apply]
  exact publish_extends env _ v tmo w

theorem version_noMemOp (env : Env) : ∀ w, NoMemOpDelta w ((Programmer.version env) w).2 := by
  intro w
  unfold Programmer.version
  refine noMemOp_bind _ _ M.get_noMemOp (fun a w' => ?_) w
  exact query_noMemOp env _ _

theorem target_id_noMemOp (env : Env) :
    ∀ w, NoMemOpDelta w ((Programmer.target_id env) w).2 := by
  intro w
  unfold Programmer.target_id
  refine noMemOp_bind _ _ M.get_noMemOp (fun a w' => ?_) w
  exact query_noMemOp env _ _

/-- The part of an attempt after the ping-pong pre-reset only appends trace
events, whatever the environment does. -/
theorem seg_attempt_tail_extends (env : Env) (seg : Segment) (tgt : Target) (msg : String)
    (p1 p2 fuel n : Nat) (am : String)
    (hrec : ∀ w, TraceExtends w
      ((Programmer.segment_program_loop env seg tgt msg p1 p2 fuel n) w).2) :
    ∀ w, TraceExtends w (((do
      doProgress env p1 (msg ++ " erase" ++ am)
      Programmer.publish env (tgt.mem_region ++ "/!erase") (.nat 0) (some 10000)
      doProgress env p2 (msg ++ " write" ++ am)
      Programmer.publish env (tgt.mem_region ++ "/!write") (.bytes seg.img) (some 10000)
      match SUBTYPE_RESET seg.subtype with
      | none => M.throw .keyError
      | some none => pure none
      | some (some _) => do
        Programmer.reset_to env seg.subtype fuel
        let version ← Programmer.version env
        let tid ← Programmer.target_id env
        if tid = targetIdVal tgt.target_id ∧ version = .nat seg.version then
          pure (some version)
        else
          Programmer.segment_program_loop env seg tgt msg p1 p2 fuel n) : M (Option DVal)) w).2 := by
  intro w
  refine rel_bind traceExtends_refl traceExtends_trans _ _
    (fun w3 => noMemOp_traceExtends (doProgress_noMemOp env p1 _ w3)) (fun a3 w3 => ?_) w
  refine rel_bind traceExtends_refl traceExtends_trans _ _
    (prog_publish_extends env _ _ _) (fun a4 w4 => ?_) w3
  refine rel_bind traceExtends_refl traceExtends_trans _ _
    (fun w5 => noMemOp_traceExtends (doProgress_noMemOp env p2 _ w5)) (fun a5 w5 => ?_) w4
  refine rel_bind traceExtends_refl traceExtends_trans _ _
    (prog_publish_extends env _ _ _) (fun a6 w6 => ?_) w5
  rcases SUBTYPE_RESET seg.subtype with _ | ort
  · exact traceExtends_refl w6
  · rcases ort with _ | rname
    · exact traceExtends_refl w6
    · refine rel_bind traceExtends_refl traceExtends_trans _ _
        (fun w7 => noMemOp_traceExtends (reset_to_noMemOp env _ fuel w7)) (fun a7 w7 => ?_) w6
      refine rel_bind traceExtends_refl traceExtends_trans _ _
        (fun w8 => noMemOp_traceExtends (version_noMemOp env w8)) (fun ver w8 => ?_) w7
      refine rel_bind traceExtends_refl traceExtends_trans _ _
        (fun w9 => noMemOp_traceExtends (target_id_noMemOp env w9)) (fun tid w9 => ?_) w8
      by_cases hveq : tid = targetIdVal tgt.target_id ∧ ver = .nat seg.version
      · simp only [if_pos hveq]
        exact traceExtends_refl w9
      · simp only [if_neg hveq]
        exact hrec w9

/-- Every run of the attempt loop only appends trace events. -/
theorem seg_loop_extends (env : Env) (seg : Segment) (tgt : Target) (msg : String)
    (p1 p2 fuel : Nat) :
    ∀ rem w, TraceExtends w
      ((Programmer.segment_program_loop env seg tgt msg p1 p2 fuel rem) w).2 := by
  intro rem
  induction rem with
  | zero => intro w; exact traceExtends_refl w
  | succ n ih =>
    intro w
    unfold Programmer.segment_program_loop
    refine rel_bind traceExtends_refl traceExtends_trans _ _
      (fun w1 => noMemOp_traceExtends (doProgress_noMemOp env p1 _ w1)) (fun a w1 => ?_) w
    by_cases h1 : seg.subtype = SUBTYPE_CTRL_UPDATER1
    · rw [if_pos h1]
      refine rel_bind traceExtends_refl traceExtends_trans _ _ ?_ ?_ w1
      · exact fun w2 => noMemOp_traceExtends (reset_to_noMemOp env _ fuel w2)
      · exact fun a2 w2 =>
          seg_attempt_tail_extends env seg tgt msg p1 p2 fuel n
            (attemptMsg (10 - (n + 1))) ih w2
    · rw [if_neg h1]
      by_cases h2 : seg.subtype = SUBTYPE_CTRL_UPDATER2
      · rw [if_pos h2]
        refine rel_bind traceExtends_refl traceExtends_trans _ _ ?_ ?_ w1
        · exact fun w2 => noMemOp_traceExtends (reset_to_noMemOp env _ fuel w2)
        · exact fun a2 w2 =>
            seg_attempt_tail_extends env seg tgt msg p1 p2 fuel n
              (attemptMsg (10 - (n + 1))) ih w2
      · rw [if_neg h2]
        refine rel_bind traceExtends_refl traceExtends_trans _ _ ?_ ?_ w1
        · exact fun w2 => traceExtends_refl w2
        · exact fun a2 w2 =>
            seg_attempt_tail_extends env seg tgt msg p1 p2 fuel n
              (attemptMsg (10 - (n + 1))) ih w2

/-- The verification phase of an attempt (post-write reset, read-backs, retry)
issues no erase/write request except through later attempts, which are covered
by `hrec`. -/
theorem seg_attempt_verify_memOps (env : Env) (seg : Segment) (tgt : Target) (msg : String)
    (p1 p2 fuel n : Nat) (r' : Option Nat)
    (hrec : ∀ w, MemOpsAtDelta r' w
      ((Programmer.segment_program_loop env seg tgt msg p1 p2 fuel n) w).2) :
    ∀ w4, MemOpsAtDelta r' w4 (((do
      Programmer.reset_to env seg.subtype fuel
      let version ← Programmer.version env
      let tid ← Programmer.target_id env
      if tid = targetIdVal tgt.target_id ∧ version = .nat seg.version then
        pure (some version)
      else
        Programmer.segment_program_loop env seg tgt msg p1 p2 fuel n) : M (Option DVal)) w4).2 := by
  intro w4
  rcases hrst : Programmer.reset_to env seg.subtype fuel w4 with ⟨rr, w5⟩
  have dreset := reset_to_noMemOp env seg.subtype fuel w4
  rw [hrst] at dreset
  cases rr with
  | error e =>
    rw [M.bind_err _ _ _ hrst]
    exact dreset.memOpsAt
  | ok u =>
    rw [M.bind_ok _ _ _ hrst]
    have d5 : MemOpsAtDelta r' w4 w5 := dreset.memOpsAt
    rcases hv : Programmer.version env w5 with ⟨vr, w6⟩
    have dver := version_noMemOp env w5
    rw [hv] at dver
    cases vr with
    | error e =>
      rw [M.bind_err _ _ _ hv]
      exact memOpsAt_trans d5 dver.memOpsAt
    | ok ver =>
      rw [M.bind_ok _ _ _ hv]
      have d6 : MemOpsAtDelta r' w4 w6 := memOpsAt_trans d5 dver.memOpsAt
      rcases ht : Programmer.target_id env w6 with ⟨tr, w7⟩
      have dtid := target_id_noMemOp env w6
      rw [ht] at dtid
      cases tr with
      | error e =>
        rw [M.bind_err _ _ _ ht]
        exact memOpsAt_trans d6 dtid.memOpsAt
      | ok tid =>
        rw [M.bind_ok _ _ _ ht]
        have d7 : MemOpsAtDelta r' w4 w7 := memOpsAt_trans d6 dtid.memOpsAt
        by_cases hveq : tid = targetIdVal tgt.target_id ∧ ver = .nat seg.version
        · rw [if_pos hveq, M.pure_apply]
          exact d7
        · rw [if_neg hveq]
          exact memOpsAt_trans d7 (hrec w7)

theorem progress_not_memop {C : Prop} (c : Nat) (m : String)
    (hm : isEraseReq (.progress c m) = true ∨ isWriteReq (.progress c m) = true) : C := by
  rcases hm with hm | hm <;> exact Bool.noConfusion hm

/-- After the ping-pong pre-reset has put the device into mode `r'`, every
erase/write request issued by the rest of the attempt (and by all later
attempts, via `hrec`) carries snapshot `r'`. -/
theorem seg_attempt_tail_memOps (env : Env) (seg : Segment) (tgt : Target) (msg : String)
    (p1 p2 fuel n : Nat) (am : String) (r' : Option Nat)
    (hrec : ∀ w, MemOpsAtDelta r' w
      ((Programmer.segment_program_loop env seg tgt msg p1 p2 fuel n) w).2) :
    ∀ w, w.prog.running_subtype = r' → MemOpsAtDelta r' w (((do
      doProgress env p1 (msg ++ " erase" ++ am)
      Programmer.publish env (tgt.mem_region ++ "/!erase") (.nat 0) (some 10000)
      doProgress env p2 (msg ++ " write" ++ am)
      Programmer.publish env (tgt.mem_region ++ "/!write") (.bytes seg.img) (some 10000)
      match SUBTYPE_RESET seg.subtype with
      | none => M.throw .keyError
      | some none => pure none
      | some (some _) => do
        Programmer.reset_to env seg.subtype fuel
        let version ← Programmer.version env
        let tid ← Programmer.target_id env
        if tid = targetIdVal tgt.target_id ∧ version = .nat seg.version then
          pure (some version)
        else
          Programmer.segment_program_loop env seg tgt msg p1 p2 fuel n) : M (Option DVal)) w).2 := by
  intro w hrun
  have d1 : MemOpsAtDelta r' w (pushEvent w (.progress p1 (msg ++ " erase" ++ am))) :=
    pushEvent_memOpsAt r' w _ (progress_not_memop _ _)
  rw [M.bind_ok _ _ _ (doProgress_apply env p1 _ w)]
  rcases he : env (pushEvent w (.progress p1 (msg ++ " erase" ++ am))).k
      (.publish ((pushEvent w (.progress p1 (msg ++ " erase" ++ am))).prog.path
        ++ "/" ++ (tgt.mem_region ++ "/!erase")) (.nat 0) (some 10000)) with _ | v
  · rw [publish_step_timeout env _ _ _ _ _ he]
    exact memOpsAt_trans d1 (pushEvent_memOpsAt r' _ _ (fun _ => hrun))
  · rw [publish_step_ok env _ _ _ _ _ (by simp [he])]
    have d2 : MemOpsAtDelta r' w _ := memOpsAt_trans d1 (pushEvent_memOpsAt r' _
      (.publish ((pushEvent w (.progress p1 (msg ++ " erase" ++ am))).prog.path
        ++ "/" ++ (tgt.mem_region ++ "/!erase")) (.nat 0) (some 10000)) (fun _ => hrun))
    rw [M.bind_ok _ _ _ (doProgress_apply env p2 _ _)]
    have d3 : MemOpsAtDelta r' w _ := memOpsAt_trans d2 (pushEvent_memOpsAt r' _
      (.progress p2 (msg ++ " write" ++ am)) (progress_not_memop _ _))
    rcases hw : env _ (.publish (_ ++ "/" ++ (tgt.mem_region ++ "/!write"))
        (.bytes seg.img) (some 10000)) with _ | v2
    · rw [publish_step_timeout env _ _ _ _ _ hw]
      exact memOpsAt_trans d3 (pushEvent_memOpsAt r' _ _ (fun _ => hrun))
    · rw [publish_step_ok env _ _ _ _ _ (by simp [hw])]
      have d4 := memOpsAt_trans d3 (pushEvent_memOpsAt r' _
        (.publish (w.prog.path ++ "/" ++ (tgt.mem_region ++ "/!write"))
          (.bytes seg.img) (some 10000)) (fun _ => hrun))
      rcases SUBTYPE_RESET seg.subtype with _ | ort
      · exact d4
      · rcases ort with _ | rname
        · exact d4
        · exact memOpsAt_trans d4
            (seg_attempt_verify_memOps env seg tgt msg p1 p2 fuel n r' hrec _)

/-- A ping-pong pre-reset to mode `sO` followed by the rest of the attempt:
every erase/write request issued afterwards carries snapshot `some sO`. -/
theorem seg_attempt_head_memOps (env : Env) (seg : Segment) (tgt : Target) (msg : String)
    (p1 p2 fuel n : Nat) (am : String) (sO : Nat)
    (hrec : ∀ w, MemOpsAtDelta (some sO) w
      ((Programmer.segment_program_loop env seg tgt msg p1 p2 fuel n) w).2) :
    ∀ w1, MemOpsAtDelta (some sO) w1 (((do
      Programmer.reset_to env sO fuel
      doProgress env p1 (msg ++ " erase" ++ am)
      Programmer.publish env (tgt.mem_region ++ "/!erase") (.nat 0) (some 10000)
      doProgress env p2 (msg ++ " write" ++ am)
      Programmer.publish env (tgt.mem_region ++ "/!write") (.bytes seg.img) (some 10000)
      match SUBTYPE_RESET seg.subtype with
      | none => M.throw .keyError
      | some none => pure none
      | some (some _) => do
        Programmer.reset_to env seg.subtype fuel
        let version ← Programmer.version env
        let tid ← Programmer.target_id env
        if tid = targetIdVal tgt.target_id ∧ version = .nat seg.version then
          pure (some version)
        else
          Programmer.segment_program_loop env seg tgt msg p1 p2 fuel n) : M (Option DVal)) w1).2 := by
  intro w1
  rcases hr : Programmer.reset_to env sO fuel w1 with ⟨rr, w2⟩
  have dreset := reset_to_noMemOp env sO fuel w1
  rw [hr] at dreset
  cases rr with
  | error e =>
    rw [M.bind_err _ _ _ hr]
    exact dreset.memOpsAt
  | ok u =>
    rw [M.bind_ok _ _ _ hr]
    have hrun2 : w2.prog.running_subtype = some sO := reset_to_ok_running env sO fuel w1 hr
    exact memOpsAt_trans dreset.memOpsAt
      (seg_attempt_tail_memOps env seg tgt msg p1 p2 fuel n am (some sO) hrec w2 hrun2)

/-- Every erase/write request in a run of the attempt loop on an updater
segment carries the other updater as the running mode. -/
theorem seg_loop_pingpong (env : Env) (seg : Segment) (tgt : Target) (msg : String)
    (p1 p2 fuel : Nat) (sO : Nat)
    (hcase : seg.subtype = SUBTYPE_CTRL_UPDATER1 ∧ sO = SUBTYPE_CTRL_UPDATER2
           ∨ seg.subtype = SUBTYPE_CTRL_UPDATER2 ∧ sO = SUBTYPE_CTRL_UPDATER1) :
    ∀ rem w, MemOpsAtDelta (some sO) w
      ((Programmer.segment_program_loop env seg tgt msg p1 p2 fuel rem) w).2 := by
  intro rem
  induction rem with
  | zero => intro w; exact memOpsAt_refl _ w
  | succ n ih =>
    intro w
    unfold Programmer.segment_program_loop
    rw [M.bind_ok _ _ _ (doProgress_apply env p1 _ w)]
    have d1 := pushEvent_memOpsAt (some sO) w
      (.progress p1 (msg ++ attemptMsg (10 - (n + 1)))) (progress_not_memop _ _)
    rcases hcase with ⟨h1, h2⟩ | ⟨h1, h2⟩
    · subst h2
      rw [if_pos h1]
      exact memOpsAt_trans d1
        (seg_attempt_head_memOps env seg tgt msg p1 p2 fuel n _ SUBTYPE_CTRL_UPDATER2 ih _)
    · subst h2
      rw [if_neg (by rw [h1]; decide), if_pos h1]
      exact memOpsAt_trans d1
        (seg_attempt_head_memOps env seg tgt msg p1 p2 fuel n _ SUBTYPE_CTRL_UPDATER1 ih _)

/-- The remainder of an attempt after the erase request only appends events. -/
theorem seg_attempt_post_erase_extends (env : Env) (seg : Segment) (tgt : Target)
    (msg : String) (p1 p2 fuel n : Nat) (am : String) :
    ∀ w3, TraceExtends w3 (((do
      doProgress env p2 (msg ++ " write" ++ am)
      Programmer.publish env (tgt.mem_region ++ "/!write") (.bytes seg.img) (some 10000)
      match SUBTYPE_RESET seg.subtype with
      | none => M.throw .keyError
      | some none => pure none
      | some (some _) => do
        Programmer.reset_to env seg.subtype fuel
        let version ← Programmer.version env
        let tid ← Programmer.target_id env
        if tid = targetIdVal tgt.target_id ∧ version = .nat seg.version then
          pure (some version)
        else
          Programmer.segment_program_loop env seg tgt msg p1 p2 fuel n) : M (Option DVal)) w3).2 := by
  intro w3
  refine rel_bind traceExtends_refl traceExtends_trans _ _
    (fun w5 => noMemOp_traceExtends (doProgress_noMemOp env p2 _ w5)) (fun a5 w5 => ?_) w3
  refine rel_bind traceExtends_refl traceExtends_trans _ _
    (prog_publish_extends env _ _ _) (fun a6 w6 => ?_) w5
  rcases SUBTYPE_RESET seg.subtype with _ | ort
  · exact traceExtends_refl w6
  · rcases ort with _ | rname
    · exact traceExtends_refl w6
    · refine rel_bind traceExtends_refl traceExtends_trans _ _
        (fun w7 => noMemOp_traceExtends (reset_to_noMemOp env _ fuel w7)) (fun a7 w7 => ?_) w6
      refine rel_bind traceExtends_refl traceExtends_trans _ _
        (fun w8 => noMemOp_traceExtends (version_noMemOp env w8)) (fun ver w8 => ?_) w7
      refine rel_bind traceExtends_refl traceExtends_trans _ _
        (fun w9 => noMemOp_traceExtends (target_id_noMemOp env w9)) (fun tid w9 => ?_) w8
      by_cases hveq : tid = targetIdVal tgt.target_id ∧ ver = .nat seg.version
      · simp only [if_pos hveq]
        exact traceExtends_refl w9
      · simp only [if_neg hveq]
        exact seg_loop_extends env seg tgt msg p1 p2 fuel n w9

/-- C2: in every execution of `segment_program` on a `ctrl_updater1` segment,
each erase and write request is issued while `_running_subtype =
ctrl_updater2`, and symmetrically for `ctrl_updater2` segments — the running
bootloader is never the target of erasure.  For `ctrl_app` and `sensor_fpga`
segments no such precondition is established: the first erase request is
issued with whatever `_running_subtype` the Programmer started with. -/
theorem segment_program_pingpong :
    (∀ env seg msg p1 p2 fuel w, w.trace = [] → seg.subtype = SUBTYPE_CTRL_UPDATER1 →
      ∀ e ∈ (Programmer.segment_program env seg msg p1 p2 fuel w).2.trace,
        isEraseEvent e = true ∨ isWriteEvent e = true →
          e.running = some SUBTYPE_CTRL_UPDATER2)
    ∧ (∀ env seg msg p1 p2 fuel w, w.trace = [] → seg.subtype = SUBTYPE_CTRL_UPDATER2 →
      ∀ e ∈ (Programmer.segment_program env seg msg p1 p2 fuel w).2.trace,
        isEraseEvent e = true ∨ isWriteEvent e = true →
          e.running = some SUBTYPE_CTRL_UPDATER1)
    ∧ (∀ env seg msg p1 p2 fuel w, w.trace = [] → seg.subtype = SUBTYPE_CTRL_APP →
      ∃ rest, (Programmer.segment_program env seg msg p1 p2 fuel w).2.trace
        = ⟨.progress p1 (msg ++ attemptMsg 0), w.prog.running_subtype⟩
          :: ⟨.progress p1 (msg ++ " erase" ++ attemptMsg 0), w.prog.running_subtype⟩
          :: ⟨.publish (w.prog.path ++ "/" ++ ("h/mem/c/app" ++ "/!erase"))
                (.nat 0) (some 10000), w.prog.running_subtype⟩
          :: rest)
    ∧ (∀ env seg msg p1 p2 fuel w, w.trace = [] → seg.subtype = SUBTYPE_SENSOR_FPGA →
      ∃ rest, (Programmer.segment_program env seg msg p1 p2 fuel w).2.trace
        = ⟨.progress p1 (msg ++ attemptMsg 0), w.prog.running_subtype⟩
          :: ⟨.progress p1 (msg ++ " erase" ++ attemptMsg 0), w.prog.running_subtype⟩
          :: ⟨.publish (w.prog.path ++ "/" ++ ("h/mem/s/app1" ++ "/!erase"))
                (.nat 0) (some 10000), w.prog.running_subtype⟩
          :: rest) := by
  have hupd : ∀ (sT sO : Nat) (tgt : Target),
      (∀ s, s = sT →
        (sT = SUBTYPE_CTRL_UPDATER1 ∧ sO = SUBTYPE_CTRL_UPDATER2
          ∨ sT = SUBTYPE_CTRL_UPDATER2 ∧ sO = SUBTYPE_CTRL_UPDATER1))
      → TARGETS sT = some tgt
      → ∀ env (seg : Segment) msg p1 p2 fuel w, w.trace = [] → seg.subtype = sT →
      ∀ e ∈ (Programmer.segment_program env seg msg p1 p2 fuel w).2.trace,
        isEraseEvent e = true ∨ isWriteEvent e = true → e.running = some sO := by
    intro sT sO tgt hcase hT env seg msg p1 p2 fuel w htr hsub e he hm
    have hs : Programmer.segment_program env seg msg p1 p2 fuel w
        = Programmer.segment_program_loop env seg tgt msg p1 p2 fuel 10 w := by
      unfold Programmer.segment_program
      rw [hsub, hT]
    have hping := seg_loop_pingpong env seg tgt msg p1 p2 fuel sO
      (by
        have := hcase sT rfl
        rcases this with ⟨h1, h2⟩ | ⟨h1, h2⟩
        · exact Or.inl ⟨by rw [hsub, h1], h2⟩
        · exact Or.inr ⟨by rw [hsub, h1], h2⟩) 10 w
    obtain ⟨Δ, hΔ, hp⟩ := hping
    rw [hs, hΔ, htr] at he
    simp only [List.nil_append] at he
    exact hp e he hm
  refine ⟨?_, ?_, ?_, ?_⟩
  · exact hupd SUBTYPE_CTRL_UPDATER1 SUBTYPE_CTRL_UPDATER2
      ⟨SUBTYPE_CTRL_UPDATER1, "ctrl_updater1", "h/mem/c/upd1", some CTRL_TYPE_UPD1⟩
      (fun s _ => Or.inl ⟨rfl, rfl⟩) TARGETS_upd1
  · exact hupd SUBTYPE_CTRL_UPDATER2 SUBTYPE_CTRL_UPDATER1
      ⟨SUBTYPE_CTRL_UPDATER2, "ctrl_updater2", "h/mem/c/upd2", some CTRL_TYPE_UPD2⟩
      (fun s _ => Or.inr ⟨rfl, rfl⟩) TARGETS_upd2
  · intro env seg msg p1 p2 fuel w htr hsub
    have hs : Programmer.segment_program env seg msg p1 p2 fuel w
        = Programmer.segment_program_loop env seg (⟨SUBTYPE_CTRL_APP, "ctrl_app", "h/mem/c/app", some CTRL_TYPE_APP⟩ : Target)
            msg p1 p2 fuel 10 w := by
      unfold Programmer.segment_program
      rw [hsub, TARGETS_app]
    rw [hs]
    unfold Programmer.segment_program_loop
    rw [M.bind_ok _ _ _ (doProgress_apply env p1 _ w)]
    rw [if_neg (show ¬ seg.subtype = SUBTYPE_CTRL_UPDATER1 by rw [hsub]; decide),
      if_neg (show ¬ seg.subtype = SUBTYPE_CTRL_UPDATER2 by rw [hsub]; decide)]
    rw [M.bind_ok _ _ _ (M.pure_apply () _)]
    simp only []
    rw [M.bind_ok _ _ _ (doProgress_apply env p1 _ _)]
    rcases he : env (pushEvent (pushEvent w (.progress p1 (msg ++ attemptMsg (10 - (9 + 1))))) (.progress p1 (msg ++ " erase" ++ attemptMsg (10 - (9 + 1))))).k
        (.publish ((pushEvent (pushEvent w (.progress p1 (msg ++ attemptMsg (10 - (9 + 1))))) (.progress p1 (msg ++ " erase" ++ attemptMsg (10 - (9 + 1))))).prog.path ++ "/" ++ ((⟨SUBTYPE_CTRL_APP, "ctrl_app", "h/mem/c/app", some CTRL_TYPE_APP⟩ : Target).mem_region ++ "/!erase")) (.nat 0) (some 10000)) with _ | v
    · rw [publish_step_timeout env _ _ _ _ _ he]
      refine ⟨[], ?_⟩
      simp [pushEvent_trace, pushEvent_prog, htr]
    · have hne : env (pushEvent (pushEvent w (.progress p1 (msg ++ attemptMsg (10 - (9 + 1))))) (.progress p1 (msg ++ " erase" ++ attemptMsg (10 - (9 + 1))))).k
          (.publish ((pushEvent (pushEvent w (.progress p1 (msg ++ attemptMsg (10 - (9 + 1))))) (.progress p1 (msg ++ " erase" ++ attemptMsg (10 - (9 + 1))))).prog.path ++ "/" ++ ((⟨SUBTYPE_CTRL_APP, "ctrl_app", "h/mem/c/app", some CTRL_TYPE_APP⟩ : Target).mem_region ++ "/!erase")) (.nat 0) (some 10000)) ≠ none := by
        rw [he]
        simp
      rw [publish_step_ok env _ _ _ _ _ hne]
      obtain ⟨Δ', h'⟩ := seg_attempt_post_erase_extends env seg
        (⟨SUBTYPE_CTRL_APP, "ctrl_app", "h/mem/c/app", some CTRL_TYPE_APP⟩ : Target)
        msg p1 p2 fuel 9 (attemptMsg (10 - (9 + 1)))
        (pushEvent (pushEvent (pushEvent w (.progress p1 (msg ++ attemptMsg (10 - (9 + 1))))) (.progress p1 (msg ++ " erase" ++ attemptMsg (10 - (9 + 1))))) (.publish ((pushEvent (pushEvent w (.progress p1 (msg ++ attemptMsg (10 - (9 + 1))))) (.progress p1 (msg ++ " erase" ++ attemptMsg (10 - (9 + 1))))).prog.path ++ "/" ++ ((⟨SUBTYPE_CTRL_APP, "ctrl_app", "h/mem/c/app", some CTRL_TYPE_APP⟩ : Target).mem_region ++ "/!erase")) (.nat 0) (some 10000)))
      refine ⟨Δ', h'.trans ?_⟩
      simp [pushEvent_trace, pushEvent_prog, htr]
  · intro env seg msg p1 p2 fuel w htr hsub
    have hs : Programmer.segment_program env seg msg p1 p2 fuel w
        = Programmer.segment_program_loop env seg (⟨SUBTYPE_SENSOR_FPGA, "sensor_fpga", "h/mem/s/app1", none⟩ : Target)
            msg p1 p2 fuel 10 w := by
      unfold Programmer.segment_program
      rw [hsub, TARGETS_fpga]
    rw [hs]
    unfold Programmer.segment_program_loop
    rw [M.bind_ok _ _ _ (doProgress_apply env p1 _ w)]
    rw [if_neg (show ¬ seg.subtype = SUBTYPE_CTRL_UPDATER1 by rw [hsub]; decide),
      if_neg (show ¬ seg.subtype = SUBTYPE_CTRL_UPDATER2 by rw [hsub]; decide)]
    rw [M.bind_ok _ _ _ (M.pure_apply () _)]
    simp only []
    rw [M.bind_ok _ _ _ (doProgress_apply env p1 _ _)]
    rcases he : env (pushEvent (pushEvent w (.progress p1 (msg ++ attemptMsg (10 - (9 + 1))))) (.progress p1 (msg ++ " erase" ++ attemptMsg (10 - (9 + 1))))).k
        (.publish ((pushEvent (pushEvent w (.progress p1 (msg ++ attemptMsg (10 - (9 + 1))))) (.progress p1 (msg ++ " erase" ++ attemptMsg (10 - (9 + 1))))).prog.path ++ "/" ++ ((⟨SUBTYPE_SENSOR_FPGA, "sensor_fpga", "h/mem/s/app1", none⟩ : Target).mem_region ++ "/!erase")) (.nat 0) (some 10000)) with _ | v
    · rw [publish_step_timeout env _ _ _ _ _ he]
      refine ⟨[], ?_⟩
      simp [pushEvent_trace, pushEvent_prog, htr]
    · have hne : env (pushEvent (pushEvent w (.progress p1 (msg ++ attemptMsg (10 - (9 + 1))))) (.progress p1 (msg ++ " erase" ++ attemptMsg (10 - (9 + 1))))).k
          (.publish ((pushEvent (pushEvent w (.progress p1 (msg ++ attemptMsg (10 - (9 + 1))))) (.progress p1 (msg ++ " erase" ++ attemptMsg (10 - (9 + 1))))).prog.path ++ "/" ++ ((⟨SUBTYPE_SENSOR_FPGA, "sensor_fpga", "h/mem/s/app1", none⟩ : Target).mem_region ++ "/!erase")) (.nat 0) (some 10000)) ≠ none := by
        rw [he]
        simp
      rw [publish_step_ok env _ _ _ _ _ hne]
      obtain ⟨Δ', h'⟩ := seg_attempt_post_erase_extends env seg
        (⟨SUBTYPE_SENSOR_FPGA, "sensor_fpga", "h/mem/s/app1", none⟩ : Target)
        msg p1 p2 fuel 9 (attemptMsg (10 - (9 + 1)))
        (pushEvent (pushEvent (pushEvent w (.progress p1 (msg ++ attemptMsg (10 - (9 + 1))))) (.progress p1 (msg ++ " erase" ++ attemptMsg (10 - (9 + 1))))) (.publish ((pushEvent (pushEvent w (.progress p1 (msg ++ attemptMsg (10 - (9 + 1))))) (.progress p1 (msg ++ " erase" ++ attemptMsg (10 - (9 + 1))))).prog.path ++ "/" ++ ((⟨SUBTYPE_SENSOR_FPGA, "sensor_fpga", "h/mem/s/app1", none⟩ : Target).mem_region ++ "/!erase")) (.nat 0) (some 10000)))
      refine ⟨Δ', h'.trans ?_⟩
      simp [pushEvent_trace, pushEvent_prog, htr]

/-- Witness for `segment_program_pingpong` at a concrete environment and
`ctrl_updater1` segment. -/
theorem segment_program_pingpong_witness :
    wApp0.trace = []
    ∧ segUpd1.subtype = SUBTYPE_CTRL_UPDATER1
    ∧ (∀ e ∈ (Programmer.segment_program envNoResp segUpd1 "m" 1 2 5 wApp0).2.trace,
        isEraseEvent e = true ∨ isWriteEvent e = true →
          e.running = some SUBTYPE_CTRL_UPDATER2) :=
  ⟨rfl, rfl, segment_program_pingpong.1 envNoResp segUpd1 "m" 1 2 5 wApp0 rfl rfl⟩

theorem deltaReqs_refl (P : Req → Prop) (w : World) : DeltaReqs P w w :=
  ⟨[], by simp, fun e he => absurd he (List.not_mem_nil e)⟩

theorem deltaReqs_trans {P : Req → Prop} {w w' w'' : World}
    (h1 : DeltaReqs P w w') (h2 : DeltaReqs P w' w'') : DeltaReqs P w w'' := by
  obtain ⟨a, ha, hpa⟩ := h1
  obtain ⟨b, hb, hpb⟩ := h2
  refine ⟨a ++ b, by simp [hb, ha], fun e he => ?_⟩
  rcases List.mem_append.mp he with h | h
  · exact hpa e h
  · exact hpb e h

theorem pushEvent_deltaReqs (P : Req → Prop) (w : World) (r : Req) (h : P r) :
    DeltaReqs P w (pushEvent w r) := by
  refine ⟨[⟨r, w.prog.running_subtype⟩], rfl, fun e he => ?_⟩
  rw [List.mem_singleton] at he
  subst he
  exact h

theorem device_paths_apply' (env : Env) (w : World) :
    Driver.device_paths env w
      = (.ok (pathsOf (env w.k .devicePaths)), pushEvent w .devicePaths) :=
  Driver.device_paths_apply env w

theorem timeNow_apply' (env : Env) (w : World) :
    timeNow env w = (.ok (timeOf (env w.k .timeNow)), pushEvent w .timeNow) :=
  timeNow_apply env w

theorem filter_path_empty_iff (ps : List String) (q : String) :
    ((ps.filter (fun d => d == q)).isEmpty = true) ↔ q ∉ ps := by
  rw [List.isEmpty_iff, List.filter_eq_nil_iff]
  constructor
  · intro h hq
    exact (h q hq) (by simp)
  · intro h a ha hbeq
    rw [beq_iff_eq] at hbeq
    subst hbeq
    exact h ha

theorem filter_path_nil (ps : List String) (q : String) (h : q ∉ ps) :
    ps.filter (fun d => d == q) = [] := by
  rw [← List.isEmpty_iff]
  exact (filter_path_empty_iff ps q).mpr h

/-- C8: the two phases of `_device_await`.  (0) the deadline is the first
clock reading plus the default 5 seconds; (1) the removal phase only
re-enumerates and reads the clock — it never sleeps; (2) it raises
TimeoutError only when some poll still observed the old path present and the
clock read after that poll exceeded the deadline; (3) as soon as the old path
is absent it proceeds after that single enumeration, with no clock check;
(4) the reappearance phase sleeps 100 ms between polls, checking its deadline
on every failed poll; (5) it returns as soon as the wanted path appears,
adopting the first observed match; (6) it raises TimeoutError on any poll
where the path is absent and the deadline has passed. -/
theorem device_await_spec :
    (∀ env dp fuel w,
      Programmer.device_await env dp none fuel w
        = ((Programmer.device_await_removal env (timeOf (env w.k .timeNow) + 5000) fuel
            >>= fun _ =>
            Programmer.device_await_appear env dp (timeOf (env w.k .timeNow) + 5000) fuel)
           (pushEvent w .timeNow)))
    ∧ (∀ env t_end fuel w, DeltaReqs (fun r => r = .devicePaths ∨ r = .timeNow) w
        ((Programmer.device_await_removal env t_end fuel) w).2)
    ∧ (∀ env t_end fuel w m,
        ((Programmer.device_await_removal env t_end fuel) w).1 = .error (.timeoutError m) →
        ∃ k, w.prog.path ∈ pathsOf (env k .devicePaths)
          ∧ t_end < timeOf (env (k + 1) .timeNow))
    ∧ (∀ env t_end fuel w, w.prog.path ∉ pathsOf (env w.k .devicePaths) →
        Programmer.device_await_removal env t_end (fuel + 1) w
          = (.ok (), pushEvent w .devicePaths))
    ∧ (∀ env dp t_end fuel w, dp ∉ pathsOf (env w.k .devicePaths) →
        timeOf (env (w.k + 1) .timeNow) ≤ t_end →
        Programmer.device_await_appear env dp t_end (fuel + 1) w
          = Programmer.device_await_appear env dp t_end fuel
              (pushEvent (pushEvent (pushEvent w .devicePaths) .timeNow) (.sleep 100)))
    ∧ (∀ env dp t_end fuel w d rest,
        (pathsOf (env w.k .devicePaths)).filter (fun x => x == dp) = d :: rest →
        Programmer.device_await_appear env dp t_end (fuel + 1) w
          = (.ok (), { pushEvent w .devicePaths with
              prog := { (pushEvent w .devicePaths).prog with path := d } }))
    ∧ (∀ env dp t_end fuel w, dp ∉ pathsOf (env w.k .devicePaths) →
        t_end < timeOf (env (w.k + 1) .timeNow) →
        ∃ m, Programmer.device_await_appear env dp t_end (fuel + 1) w
          = (.error (.timeoutError m), pushEvent (pushEvent w .devicePaths) .timeNow)) := by
  refine ⟨?_, ?_, ?_, ?_, ?_, ?_, ?_⟩
  · intro env dp fuel w
    unfold Programmer.device_await
    rw [M.bind_ok _ _ _ (timeNow_apply' env w)]
    rfl
  · intro env t_end fuel
    induction fuel with
    | zero => intro w; exact deltaReqs_refl _ w
    | succ n ih =>
      intro w
      unfold Programmer.device_await_removal
      refine rel_bind (deltaReqs_refl _) deltaReqs_trans _ _
        (fun w0 => deltaReqs_refl _ w0) (fun a w0 => ?_) w
      refine rel_bind (deltaReqs_refl _) deltaReqs_trans _ _
        (fun w1 => ?_) (fun dps w1 => ?_) w0
      · rw [device_paths_apply']
        exact pushEvent_deltaReqs _ _ _ (Or.inl rfl)
      · by_cases hemp : (dps.filter (fun d => d == a.prog.path)).isEmpty
        · simp only [hemp, if_true]
          exact deltaReqs_refl _ _
        · simp only [hemp, if_false]
          refine rel_bind (deltaReqs_refl _) deltaReqs_trans _ _
            (fun w2 => ?_) (fun t w2 => ?_) w1
          · rw [timeNow_apply']
            exact pushEvent_deltaReqs _ _ _ (Or.inr rfl)
          · by_cases ht : t_end < t
            · simp only [ht, if_true]
              exact deltaReqs_refl _ _
            · simp only [ht, if_false]
              exact ih _
  · intro env t_end fuel
    induction fuel with
    | zero =>
      intro w m h
      simp [M.throw_apply, Programmer.device_await_removal] at h
    | succ n ih =>
      intro w m h
      unfold Programmer.device_await_removal at h
      rw [M.bind_ok _ _ _ (M.get_apply w), M.bind_ok _ _ _ (device_paths_apply' env w)] at h
      by_cases hemp : ((pathsOf (env w.k .devicePaths)).filter
          (fun d => d == w.prog.path)).isEmpty
      · rw [if_pos hemp, M.pure_apply] at h
        simp at h
      · rw [if_neg hemp] at h
        rw [M.bind_ok _ _ _ (timeNow_apply' env (pushEvent w .devicePaths))] at h
        by_cases ht : t_end < timeOf (env (pushEvent w .devicePaths).k .timeNow)
        · refine ⟨w.k, ?_, ht⟩
          by_contra hno
          exact hemp ((filter_path_empty_iff _ _).mpr hno)
        · rw [if_neg ht] at h
          obtain ⟨k, hk1, hk2⟩ := ih _ m h
          exact ⟨k, hk1, hk2⟩
  · intro env t_end fuel w hmem
    unfold Programmer.device_await_removal
    rw [M.bind_ok _ _ _ (M.get_apply w), M.bind_ok _ _ _ (device_paths_apply' env w)]
    rw [if_pos ((filter_path_empty_iff _ _).mpr hmem), M.pure_apply]
  · intro env dp t_end fuel w hmem ht
    unfold Programmer.device_await_appear
    rw [M.bind_ok _ _ _ (device_paths_apply' env w)]
    rw [filter_path_nil _ _ hmem]
    simp only []
    rw [M.bind_ok _ _ _ (timeNow_apply' env (pushEvent w .devicePaths))]
    rw [if_neg (by exact fun hc => absurd ht (by simpa using hc))]
    rw [M.bind_ok _ _ _ (doSleep_apply env 100 _)]
    cases fuel <;> rfl
  · intro env dp t_end fuel w d rest hf
    unfold Programmer.device_await_appear
    rw [M.bind_ok _ _ _ (device_paths_apply' env w)]
    rw [hf]
    rfl
  · intro env dp t_end fuel w hmem ht
    refine ⟨"timeout waiting for " ++ dp ++ " in "
      ++ String.intercalate "," (pathsOf (env w.k .devicePaths)), ?_⟩
    unfold Programmer.device_await_appear
    rw [M.bind_ok _ _ _ (device_paths_apply' env w)]
    rw [filter_path_nil _ _ hmem]
    simp only []
    rw [M.bind_ok _ _ _ (timeNow_apply' env (pushEvent w .devicePaths))]
    rw [if_pos (show t_end < timeOf (env (pushEvent w .devicePaths).k .timeNow) from ht),
        M.throw_apply]

theorem device_await_spec_witness :
    (((Programmer.device_await_removal envTO 5000 1) wApp0).1
        = .error (.timeoutError "timeout waiting for u/js220/000001 removal")
      ∧ ∃ k, wApp0.prog.path ∈ pathsOf (envTO k .devicePaths)
          ∧ 5000 < timeOf (envTO (k + 1) .timeNow))
    ∧ (wApp0.prog.path ∉ pathsOf (envNoResp wApp0.k .devicePaths)
      ∧ Programmer.device_await_removal envNoResp 0 1 wApp0
          = (.ok (), pushEvent wApp0 .devicePaths))
    ∧ ("x" ∉ pathsOf (envTO wApp0.k .devicePaths)
      ∧ timeOf (envTO (wApp0.k + 1) .timeNow) ≤ 10000
      ∧ Programmer.device_await_appear envTO "x" 10000 1 wApp0
          = Programmer.device_await_appear envTO "x" 10000 0
              (pushEvent (pushEvent (pushEvent wApp0 .devicePaths) .timeNow) (.sleep 100)))
    ∧ ((pathsOf (envTO wApp0.k .devicePaths)).filter (fun x => x == "u/js220/000001")
          = "u/js220/000001" :: []
      ∧ Programmer.device_await_appear envTO "u/js220/000001" 0 1 wApp0
          = (.ok (), { pushEvent wApp0 .devicePaths with
              prog := { (pushEvent wApp0 .devicePaths).prog with path := "u/js220/000001" } }))
    ∧ ("x" ∉ pathsOf (envTO wApp0.k .devicePaths)
      ∧ 0 < timeOf (envTO (wApp0.k + 1) .timeNow)
      ∧ ∃ m, Programmer.device_await_appear envTO "x" 0 1 wApp0
          = (.error (.timeoutError m), pushEvent (pushEvent wApp0 .devicePaths) .timeNow)) :=
  ⟨⟨rfl, device_await_spec.2.2.1 envTO 5000 1 wApp0
      "timeout waiting for u/js220/000001 removal" rfl⟩,
   ⟨by decide, device_await_spec.2.2.2.1 envNoResp 0 0 wApp0 (by decide)⟩,
   ⟨by decide, by decide,
    device_await_spec.2.2.2.2.1 envTO "x" 10000 0 wApp0 (by decide) (by decide)⟩,
   ⟨rfl, device_await_spec.2.2.2.2.2.1 envTO "u/js220/000001" 0 0 wApp0
      "u/js220/000001" [] rfl⟩,
   ⟨by decide, by decide,
    device_await_spec.2.2.2.2.2.2 envTO "x" 0 0 wApp0 (by decide) (by decide)⟩⟩

/-- C6: during `release_program`'s initial updater probing, a TimeoutError
raised by `reset_to` (or by the following version read) is caught, not
propagated: the probe closes and reopens the device and returns `None` for
that updater's version (clauses 1–2); `None` renders as `"?.?.?"` (clause 3);
and a complete `release_program` run in which both updater reset requests
time out finishes with `.ok`, reporting `"?.?.?"` for update1 and update2 in
`versions_before` (clause 4). -/
theorem release_probe_recovers :
    (∀ env subtype fuel w w' m,
      (do Programmer.reset_to env subtype fuel
          let v ← Programmer.version env
          pure (some v) : M (Option DVal)) w = (.error (.timeoutError m), w') →
      release_probe_updater env subtype fuel w
        = (do Programmer.closeSelf env
              Programmer.openSelf env
              pure (none : Option DVal)) w')
    ∧ (∀ env subtype fuel w w' m r1 r2,
      (do Programmer.reset_to env subtype fuel
          let v ← Programmer.version env
          pure (some v) : M (Option DVal)) w = (.error (.timeoutError m), w') →
      env w'.k (.closeDev w'.prog.path) = some r1 →
      env (w'.k + 1) (.openDev w'.prog.path) = some r2 →
      release_probe_updater env subtype fuel w
        = (.ok none,
           pushEvent (pushEvent w' (.closeDev w'.prog.path)) (.openDev w'.prog.path)))
    ∧ version_to_str (vOptToVersion none) = "?.?.?"
    ∧ (release_program envP "u/js220/000001" [] false 20 wApp0).1
        = .ok ([("app", "0.1.0"), ("fpga", "0.1.0"),
                ("update1", "?.?.?"), ("update2", "?.?.?")],
               [("app", "0.1.0"), ("fpga", "0.1.0"),
                ("update1", "?.?.?"), ("update2", "?.?.?")]) := by
  refine ⟨?_, ?_, rfl, ?_⟩
  · intro env subtype fuel w w' m h
    unfold release_probe_updater catchTimeout
    rw [h]
  · intro env subtype fuel w w' m r1 r2 h h1 h2
    unfold release_probe_updater catchTimeout
    rw [h]
    simp only []
    have hc : Programmer.closeSelf env w' = (.ok (), pushEvent w' (.closeDev w'.prog.path)) := by
      unfold Programmer.closeSelf
      rw [M.bind_ok _ _ _ (M.get_apply w'), Driver.closeDev_apply, h1]
    have ho : Programmer.openSelf env (pushEvent w' (.closeDev w'.prog.path))
        = (.ok (), pushEvent (pushEvent w' (.closeDev w'.prog.path))
            (.openDev w'.prog.path)) := by
      unfold Programmer.openSelf
      rw [M.bind_ok _ _ _ (M.get_apply (pushEvent w' (.closeDev w'.prog.path))),
          Driver.openDev_apply]
      have hk : (pushEvent w' (.closeDev w'.prog.path)).k = w'.k + 1 := rfl
      rw [hk, show (pushEvent w' (.closeDev w'.prog.path)).prog.path = w'.prog.path from rfl,
          h2]
    rw [M.bind_ok _ _ _ hc, M.bind_ok _ _ _ ho, M.pure_apply]
  · rfl

theorem release_probe_recovers_witness :
    (release_probe_updater envC6 SUBTYPE_CTRL_UPDATER2 5 wApp0
      = (do Programmer.closeSelf envC6
            Programmer.openSelf envC6
            pure (none : Option DVal))
          (pushEvent wApp0 (.publish "u/js220/000001/h/!reset" (.str "update2") none)))
    ∧ (release_probe_updater envC6 SUBTYPE_CTRL_UPDATER2 5 wApp0
      = (.ok none,
         pushEvent
           (pushEvent
             (pushEvent wApp0 (.publish "u/js220/000001/h/!reset" (.str "update2") none))
             (.closeDev "u/js220/000001"))
           (.openDev "u/js220/000001"))) :=
  ⟨release_probe_recovers.1 envC6 SUBTYPE_CTRL_UPDATER2 5 wApp0
     (pushEvent wApp0 (.publish "u/js220/000001/h/!reset" (.str "update2") none))
     "u/js220/000001/h/!reset" rfl,
   release_probe_recovers.2.1 envC6 SUBTYPE_CTRL_UPDATER2 5 wApp0
     (pushEvent wApp0 (.publish "u/js220/000001/h/!reset" (.str "update2") none))
     "u/js220/000001/h/!reset" .pyNone .pyNone rfl rfl rfl⟩

theorem countErase_one_query (t : String) (s : Option Nat) :
    countErase [⟨.query t, s⟩] = 0 := rfl

theorem countWrite_one_query (t : String) (s : Option Nat) :
    countWrite [⟨.query t, s⟩] = 0 := rfl

/-- The verification tail of one `segment_program` attempt on a `ctrl_app`
segment: the reset is a no-op, version and target_id each answer the fixed
query response `qv`, and since `qv` differs from the segment's version the
attempt falls through to the next loop iteration. -/
theorem seg_verify_mismatch_tail (env : Env) (seg : Segment) (tgt : Target) (msg : String)
    (p1 p2 fuel rem : Nat) (qv : DVal)
    (hq : ∀ k t, env k (.query t) = some qv)
    (hv : ¬ qv = .nat seg.version) :
    ∀ w2, w2.prog.running_subtype = some SUBTYPE_CTRL_APP →
    (((do Programmer.reset_to env SUBTYPE_CTRL_APP fuel
          let version ← Programmer.version env
          let tid ← Programmer.target_id env
          if tid = targetIdVal tgt.target_id ∧ version = .nat seg.version then
            pure (some version)
          else
            Programmer.segment_program_loop env seg tgt msg p1 p2 fuel rem) :
        M (Option DVal)) w2)
      = Programmer.segment_program_loop env seg tgt msg p1 p2 fuel rem
          (pushEvent (pushEvent w2 (.query (w2.prog.path ++ "/c/fw/version")))
            (.query (w2.prog.path ++ "/c/target"))) := by
  intro w2 hrun2
  rw [M.bind_ok _ _ _ (show Programmer.reset_to env SUBTYPE_CTRL_APP fuel w2
      = (.ok (), w2) from by
    unfold Programmer.reset_to
    rw [M.bind_ok _ _ _ (M.get_apply w2), if_pos hrun2, M.pure_apply])]
  rw [M.bind_ok _ _ _ (show Programmer.version env w2
      = (.ok qv, pushEvent w2 (.query (w2.prog.path ++ "/c/fw/version"))) from by
    unfold Programmer.version
    rw [M.bind_ok _ _ _ (M.get_apply w2), Driver.query_apply, hq])]
  rw [M.bind_ok _ _ _ (show Programmer.target_id env
        (pushEvent w2 (.query (w2.prog.path ++ "/c/fw/version")))
      = (.ok qv, pushEvent (pushEvent w2 (.query (w2.prog.path ++ "/c/fw/version")))
          (.query (w2.prog.path ++ "/c/target"))) from by
    unfold Programmer.target_id
    rw [M.bind_ok _ _ _ (M.get_apply _), Driver.query_apply, hq]
    rfl)]
  rw [if_neg (fun hb => hv hb.2)]

/-- One full `segment_program` attempt on a `ctrl_app` segment in which erase
and write succeed but verification fails: seven requests are recorded (exactly
one erase and one write), the Programmer state is unchanged, and the loop
continues with the next attempt. -/
theorem seg_attempt_mismatch (env : Env) (seg : Segment) (tgt : Target) (msg : String)
    (p1 p2 fuel rem : Nat) (w : World) (qv : DVal)
    (hsub : seg.subtype = SUBTYPE_CTRL_APP)
    (hrun : w.prog.running_subtype = some SUBTYPE_CTRL_APP)
    (hpub : ∀ k t v tmo, env k (.publish t v tmo) ≠ none)
    (hq : ∀ k t, env k (.query t) = some qv)
    (hv : ¬ qv = .nat seg.version) :
    ∃ w', Programmer.segment_program_loop env seg tgt msg p1 p2 fuel (rem + 1) w
        = Programmer.segment_program_loop env seg tgt msg p1 p2 fuel rem w'
      ∧ w'.prog = w.prog
      ∧ countErase w'.trace = countErase w.trace + 1
      ∧ countWrite w'.trace = countWrite w.trace + 1 := by
  refine ⟨pushEvent (pushEvent (pushEvent (pushEvent (pushEvent (pushEvent (pushEvent w
      (.progress p1 (msg ++ attemptMsg (10 - (rem + 1)))))
      (.progress p1 (msg ++ " erase" ++ attemptMsg (10 - (rem + 1)))))
      (.publish (w.prog.path ++ "/" ++ (tgt.mem_region ++ "/!erase")) (.nat 0) (some 10000)))
      (.progress p2 (msg ++ " write" ++ attemptMsg (10 - (rem + 1)))))
      (.publish (w.prog.path ++ "/" ++ (tgt.mem_region ++ "/!write"))
        (.bytes seg.img) (some 10000)))
      (.query (w.prog.path ++ "/c/fw/version")))
      (.query (w.prog.path ++ "/c/target")), ?_, rfl, ?_, ?_⟩
  · conv_lhs => unfold Programmer.segment_program_loop
    rw [M.bind_ok _ _ _ (doProgress_apply env p1 _ w)]
    rw [hsub, if_neg (by decide), if_neg (by decide)]
    rw [M.bind_ok _ _ _ (M.pure_apply () _)]
    simp only []
    rw [M.bind_ok _ _ _ (doProgress_apply env p1 _ _)]
    rw [publish_step_ok env (tgt.mem_region ++ "/!erase") _ _ _ _ (hpub _ _ _ _)]
    rw [M.bind_ok _ _ _ (doProgress_apply env p2 _ _)]
    rw [publish_step_ok env (tgt.mem_region ++ "/!write") _ _ _ _ (hpub _ _ _ _)]
    rw [show SUBTYPE_RESET SUBTYPE_CTRL_APP = some (some "app") from rfl]
    simp only []
    refine seg_verify_mismatch_tail env seg tgt msg p1 p2 fuel rem qv hq hv _ ?_
    exact hrun
  · simp [countErase_push, countErase_one_progress, countErase_one_erase,
      countErase_one_write, countErase_one_query]
  · simp [countWrite_push, countWrite_one_progress, countWrite_one_erase,
      countWrite_one_write, countWrite_one_query]

/-- Verification that never matches exhausts the attempt budget: `rem`
remaining attempts all fail by mismatch and end in the fatal `RuntimeError`
naming the target, with exactly one erase and one write recorded per
attempt. -/
theorem seg_loop_exhausts (env : Env) (seg : Segment) (tgt : Target) (msg : String)
    (p1 p2 fuel : Nat) (qv : DVal)
    (hsub : seg.subtype = SUBTYPE_CTRL_APP)
    (hpub : ∀ k t v tmo, env k (.publish t v tmo) ≠ none)
    (hq : ∀ k t, env k (.query t) = some qv)
    (hv : ¬ qv = .nat seg.version) :
    ∀ (rem : Nat) (w : World), w.prog.running_subtype = some SUBTYPE_CTRL_APP →
      ∃ w', Programmer.segment_program_loop env seg tgt msg p1 p2 fuel rem w
          = (.error (.runtimeError ("Failed to program " ++ tgt.name)), w')
        ∧ countErase w'.trace = countErase w.trace + rem
        ∧ countWrite w'.trace = countWrite w.trace + rem := by
  intro rem
  induction rem with
  | zero =>
    intro w hrun
    exact ⟨w, rfl, by simp, by simp⟩
  | succ n ih =>
    intro w hrun
    obtain ⟨w1, heq, hprog, hce, hcw⟩ :=
      seg_attempt_mismatch env seg tgt msg p1 p2 fuel n w qv hsub hrun hpub hq hv
    obtain ⟨w', heq', hce', hcw'⟩ := ih w1 (by rw [hprog]; exact hrun)
    exact ⟨w', heq.trans heq', by omega, by omega⟩

/-- C4: on a `ctrl_app` segment (a subtype with a registry reset-name), when
every erase and write request succeeds but post-write verification never
matches — every read-back query answers the same value `qv`, which differs
from the segment's version — `segment_program` performs exactly 10 attempts
(one erase and one write recorded per attempt) and then raises the fatal
`RuntimeError` naming the target, never returning a version (clause 1); and a
verification mismatch is not an immediate fatal error: it consumes exactly one
attempt, leaving the Programmer state unchanged and looping to the next
attempt (clause 2). -/
theorem segment_program_exhaustion :
    (∀ env seg msg p1 p2 fuel w qv,
      seg.subtype = SUBTYPE_CTRL_APP →
      w.prog.running_subtype = some SUBTYPE_CTRL_APP →
      (∀ k t v tmo, env k (.publish t v tmo) ≠ none) →
      (∀ k t, env k (.query t) = some qv) →
      ¬ qv = .nat seg.version →
      ∃ w', Programmer.segment_program env seg msg p1 p2 fuel w
          = (.error (.runtimeError "Failed to program ctrl_app"), w')
        ∧ countErase w'.trace = countErase w.trace + 10
        ∧ countWrite w'.trace = countWrite w.trace + 10)
    ∧ (∀ env seg tgt msg p1 p2 fuel rem w qv,
      seg.subtype = SUBTYPE_CTRL_APP →
      w.prog.running_subtype = some SUBTYPE_CTRL_APP →
      (∀ k t v tmo, env k (.publish t v tmo) ≠ none) →
      (∀ k t, env k (.query t) = some qv) →
      ¬ qv = .nat seg.version →
      ∃ w', Programmer.segment_program_loop env seg tgt msg p1 p2 fuel (rem + 1) w
          = Programmer.segment_program_loop env seg tgt msg p1 p2 fuel rem w'
        ∧ w'.prog = w.prog
        ∧ countErase w'.trace = countErase w.trace + 1
        ∧ countWrite w'.trace = countWrite w.trace + 1) := by
  constructor
  · intro env seg msg p1 p2 fuel w qv hsub hrun hpub hq hv
    have hs : Programmer.segment_program env seg msg p1 p2 fuel w
        = Programmer.segment_program_loop env seg
            ⟨SUBTYPE_CTRL_APP, "ctrl_app", "h/mem/c/app", some CTRL_TYPE_APP⟩
            msg p1 p2 fuel 10 w := by
      unfold Programmer.segment_program
      rw [hsub, TARGETS_app]
    obtain ⟨w', heq, hce, hcw⟩ := seg_loop_exhausts env seg
      ⟨SUBTYPE_CTRL_APP, "ctrl_app", "h/mem/c/app", some CTRL_TYPE_APP⟩
      msg p1 p2 fuel qv hsub hpub hq hv 10 w hrun
    exact ⟨w', hs.trans heq, hce, hcw⟩
  · intro env seg tgt msg p1 p2 fuel rem w qv hsub hrun hpub hq hv
    exact seg_attempt_mismatch env seg tgt msg p1 p2 fuel rem w qv hsub hrun hpub hq hv

/-- Witness for `segment_program_exhaustion` at a concrete environment where
every publish succeeds and every query answers `999`, on a `ctrl_app` segment
with version `100`. -/
theorem segment_program_exhaustion_witness :
    (segApp0.subtype = SUBTYPE_CTRL_APP
      ∧ wApp0.prog.running_subtype = some SUBTYPE_CTRL_APP
      ∧ (∀ k t v tmo, envQ k (.publish t v tmo) ≠ none)
      ∧ (∀ k t, envQ k (.query t) = some (.nat 999))
      ∧ ¬ (.nat 999 : DVal) = .nat segApp0.version)
    ∧ (∃ w', Programmer.segment_program envQ segApp0 "m" 1 2 5 wApp0
          = (.error (.runtimeError "Failed to program ctrl_app"), w')
        ∧ countErase w'.trace = countErase wApp0.trace + 10
        ∧ countWrite w'.trace = countWrite wApp0.trace + 10)
    ∧ (∃ w', Programmer.segment_program_loop envQ segApp0
            ⟨SUBTYPE_CTRL_APP, "ctrl_app", "h/mem/c/app", some CTRL_TYPE_APP⟩
            "m" 1 2 5 (3 + 1) wApp0
          = Programmer.segment_program_loop envQ segApp0
            ⟨SUBTYPE_CTRL_APP, "ctrl_app", "h/mem/c/app", some CTRL_TYPE_APP⟩
            "m" 1 2 5 3 w'
        ∧ w'.prog = wApp0.prog
        ∧ countErase w'.trace = countErase wApp0.trace + 1
        ∧ countWrite w'.trace = countWrite wApp0.trace + 1) :=
  ⟨⟨rfl, rfl, fun _ _ _ _ h => Option.noConfusion h, fun _ _ => rfl, by decide⟩,
   segment_program_exhaustion.1 envQ segApp0 "m" 1 2 5 wApp0 (.nat 999) rfl rfl
     (fun _ _ _ _ h => Option.noConfusion h) (fun _ _ => rfl) (by decide),
   segment_program_exhaustion.2 envQ segApp0
     ⟨SUBTYPE_CTRL_APP, "ctrl_app", "h/mem/c/app", some CTRL_TYPE_APP⟩
     "m" 1 2 5 3 wApp0 (.nat 999) rfl rfl
     (fun _ _ _ _ h => Option.noConfusion h) (fun _ _ => rfl) (by decide)⟩

end Joulescope